import Mathlib

/-!
# wsHttpServer: connection pool, readiness polling and timeout eviction

A shallow embedding of `websocket/src/http_server.cpp` and `http_server.h`.

* The server object behind an `HServer` pointer is a value of type `Server`
  that is passed in and returned (explicit state passing).
* Every call that leaves the translation unit (dmSocket, dmTime, dmLog, the
  registered request callback) is recorded, in call order, in a `Trace`.
  The behaviour of those collaborators is an `Env`: a family of functions
  from the trace of everything that happened so far (and the arguments of the
  call) to the values they hand back.  Quantifying over `Env` quantifies over
  every deterministic behaviour of the socket provider, the clock and the
  callback.
* `uint64_t` values are naturals reduced modulo `2^64`; `unsigned int` and
  `uint32_t` values are naturals reduced modulo `2^32` (the width of
  `unsigned int` on every platform the engine targets).
* The three index loops of `Update` that run a data-dependent number of
  iterations are structurally recursive on a fuel argument; `Update` supplies
  the fuel and the result is `none` when it runs out.  The theorems show that
  `Update` always returns `some`.
-/

set_option linter.unusedVariables false

/-! ## dmSocket: the socket provider's vocabulary -/

namespace dmSocket

/-- Modelled from the spec: the socket handle type of the socket provider
(`dmSocket::Socket`, an integer descriptor). -/
abbrev Socket := Int

/-- Modelled from the spec: the explicit "invalid" sentinel of the socket
provider (`dmSocket::INVALID_SOCKET_HANDLE`). -/
def INVALID_SOCKET_HANDLE : Socket := -1

/-- Modelled from the spec: the coarse result codes of the socket provider
(`dmSocket::Result`).  Only `RESULT_OK`, `RESULT_CONNABORTED` and
`RESULT_NOTCONN` are told apart by the server; every other code is
`RESULT_OTHER`. -/
inductive Result where
  | RESULT_OK
  | RESULT_CONNABORTED
  | RESULT_NOTCONN
  | RESULT_OTHER (code : Nat)
  deriving DecidableEq, Repr

/-- Modelled from the spec: a resolved network address (`dmSocket::Address`),
kept abstract. -/
abbrev Address := Nat

/-- Modelled from the spec: the read-readiness set of a `dmSocket::Selector`
(the server only uses `SELECTOR_KIND_READ`): the sockets registered in it. -/
abbrev Selector := List Socket

/-- Modelled from the spec: `dmSocket::SelectorZero` empties the set. -/
def SelectorZero (selector : Selector) : Selector := []

/-- Modelled from the spec: `dmSocket::SelectorSet` registers a socket for
read-readiness. -/
def SelectorSet (selector : Selector) (socket : Socket) : Selector :=
  selector ++ [socket]

/-- Modelled from the spec: `dmSocket::SelectorIsSet` tells whether the socket
is in the set (after `Select`: whether it was reported ready). -/
def SelectorIsSet (selector : Selector) (socket : Socket) : Bool :=
  decide (socket ∈ selector)

end dmSocket

/-! ## dmArray: the bounded array holding the pool -/

/-- Modelled from the spec: the bounded collection `dmArray<T>` of the engine
SDK: the stored elements in index order and the capacity. -/
structure dmArray (α : Type) where
  data : List α
  capacity : Nat
  deriving DecidableEq, Repr

namespace dmArray

variable {α : Type}

/-- Modelled from the spec: a default-constructed `dmArray` is empty and has
capacity zero. -/
def empty : dmArray α := { data := [], capacity := 0 }

/-- Modelled from the spec: `dmArray::Size`. -/
def Size (a : dmArray α) : Nat := a.data.length

/-- Modelled from the spec: `dmArray::Capacity`. -/
def Capacity (a : dmArray α) : Nat := a.capacity

/-- Modelled from the spec: `dmArray::Full`, the pool is at capacity. -/
def Full (a : dmArray α) : Bool := a.Size == a.Capacity

/-- Modelled from the spec: `dmArray::SetCapacity` fixes the capacity (and
drops elements beyond it). -/
def SetCapacity (a : dmArray α) (capacity : Nat) : dmArray α :=
  { data := a.data.take capacity, capacity := capacity }

/-- Modelled from the spec: `dmArray::Push` appends an element at the end. -/
def Push (a : dmArray α) (x : α) : dmArray α :=
  { a with data := a.data ++ [x] }

/-- Modelled from the spec: writing through `operator[]`, that is
`array[index] = x`. -/
def Set (a : dmArray α) (index : Nat) (x : α) : dmArray α :=
  { a with data := a.data.set index x }

/-- Modelled from the spec: `dmArray::EraseSwap`, the swap-with-last removal:
the last element overwrites the element at `index` and the array shrinks by
one. -/
def EraseSwap (a : dmArray α) (index : Nat) : dmArray α :=
  match a.data.getLast? with
  | none => a
  | some last => { a with data := (a.data.set index last).dropLast }

end dmArray

/-! ## wsHttpServer -/

namespace wsHttpServer

open dmSocket (Socket Address Selector INVALID_SOCKET_HANDLE SelectorZero SelectorSet
  SelectorIsSet)

/-- Result codes (`enum Result` of http_server.h). -/
inductive Result where
  | RESULT_OK
  | RESULT_SOCKET_ERROR
  | RESULT_INVALID_REQUEST
  | RESULT_ERROR_INVAL
  | RESULT_INTERNAL_ERROR
  | RESULT_UNKNOWN
  deriving DecidableEq, Repr

/-- The handle `HServer` (`struct Server*`): the null pointer or the address of
a server object. -/
inductive HServer where
  | null
  | ptr (address : Nat)
  deriving DecidableEq, Repr

/-- The `struct Request` of http_server.h.  The character buffers are lists of
bytes, the one-bit fields are booleans, pointers are addresses. -/
structure Request where
  m_Result : Result
  m_Socket : Socket
  m_Server : HServer
  m_Method : List Nat
  m_Resource : List Nat
  m_StatusCode : Int
  m_ContentOffset : Nat
  m_TotalReceived : Nat
  m_TotalContentReceived : Nat
  m_SendBufferPos : Nat
  m_CloseConnection : Bool
  m_HeaderSent : Bool
  m_AttributesSent : Bool
  deriving DecidableEq, Repr

/-- The constructor `Request()`: everything zeroed by `memset`, then
`m_StatusCode = 200`.  (The zero of `Result` is `RESULT_OK`, the zero of a
pointer is the null handle.) -/
def Request.init : Request :=
  { m_Result := Result.RESULT_OK
    m_Socket := 0
    m_Server := HServer.null
    m_Method := List.replicate 16 0
    m_Resource := List.replicate 128 0
    m_StatusCode := 200
    m_ContentOffset := 0
    m_TotalReceived := 0
    m_TotalContentReceived := 0
    m_SendBufferPos := 0
    m_CloseConnection := false
    m_HeaderSent := false
    m_AttributesSent := false }

/-- The `struct NewParams` of http_server.h.  `m_HttpRequest` is a function
pointer (0 is the null pointer); the two `uint16_t` fields are naturals below
`2^16`, see `NewParams.InRange`. -/
structure NewParams where
  m_Userdata : Nat
  m_HttpRequest : Nat
  m_MaxConnections : Nat
  m_ConnectionTimeout : Nat
  deriving DecidableEq, Repr

/-- The two `uint16_t` fields of `NewParams` hold 16-bit unsigned values. -/
def NewParams.InRange (params : NewParams) : Prop :=
  params.m_MaxConnections < 2 ^ 16 ∧ params.m_ConnectionTimeout < 2 ^ 16

instance (params : NewParams) : Decidable params.InRange :=
  inferInstanceAs (Decidable (_ ∧ _))

/-- `SetDefaultParams`: `memset` to zero, then 16 connections and 60 seconds. -/
def SetDefaultParams (params : NewParams) : NewParams :=
  { m_Userdata := 0, m_HttpRequest := 0, m_MaxConnections := 16, m_ConnectionTimeout := 60 }

/-- The `struct Connection` of http_server.cpp. -/
structure Connection where
  m_Socket : Socket
  m_RequestCount : Nat
  m_ConnectionTimeStart : Nat
  deriving DecidableEq, Repr

/-- The `struct Server` of http_server.cpp (without the scratch buffer
`m_Buffer`, which this file never reads or writes).  `m_HttpRequest` and
`m_Userdata` are pointers, `m_Reconnect` is the one-bit flag. -/
structure Server where
  m_Address : Address
  m_Port : Nat
  m_HttpRequest : Nat
  m_Userdata : Nat
  m_ConnectionTimeout : Nat
  m_Connections : dmArray Connection
  m_ServerSocket : Socket
  m_Reconnect : Bool
  deriving DecidableEq, Repr

/-- The constructor `Server()`: the listening socket is the invalid sentinel,
the reconnect flag is clear, the pool is a default-constructed array.  The
fields the constructor leaves unset are zero here; `New` assigns them before
the handle is handed out. -/
def Server.init : Server :=
  { m_Address := 0
    m_Port := 0
    m_HttpRequest := 0
    m_Userdata := 0
    m_ConnectionTimeout := 0
    m_Connections := dmArray.empty
    m_ServerSocket := INVALID_SOCKET_HANDLE
    m_Reconnect := false }

/-- One call that leaves the translation unit, with its arguments and, where
the caller receives something, what it received. -/
inductive Event where
  | GetHostByName (r : dmSocket.Result) (address : Address)
  | SocketNew (r : dmSocket.Result) (socket : Socket)
  | SetReuseAddress (socket : Socket)
  | Bind (socket : Socket) (address : Address) (port : Nat) (r : dmSocket.Result)
  | Listen (socket : Socket) (backlog : Nat) (r : dmSocket.Result)
  | GetName (socket : Socket) (r : dmSocket.Result) (address : Address) (port : Nat)
  | Delete (socket : Socket)
  | Shutdown (socket : Socket)
  | Select (selector : Selector) (r : dmSocket.Result) (ready : Selector)
  | Accept (socket : Socket) (r : dmSocket.Result) (client : Socket)
  | SetNoDelay (socket : Socket)
  | GetTime (time : Nat)
  | LogWarning
  | HttpRequest (callback : Nat) (userdata : Nat) (request : Request) (response : Request)
  deriving DecidableEq, Repr

/-- The calls made so far, oldest first. -/
abbrev Trace := List Event

/-- The collaborators of the server: what each external call hands back, as a
function of everything that happened before the call and of its arguments. -/
structure Env where
  GetHostByName : Trace → dmSocket.Result × Address
  SocketNew : Trace → dmSocket.Result × Socket
  Bind : Trace → Socket → Address → Nat → dmSocket.Result
  Listen : Trace → Socket → Nat → dmSocket.Result
  GetName : Trace → Socket → dmSocket.Result × Address × Nat
  Select : Trace → Selector → dmSocket.Result × (Socket → Bool)
  Accept : Trace → Socket → dmSocket.Result × Socket
  GetTime : Trace → Nat
  HttpRequest : Trace → Nat → Nat → Request → Request
  NewServer : Trace → Nat

/-- `Disconnect`: delete the listening socket unless it is the sentinel. -/
def Disconnect (server : Server) (tr : Trace) : Server × Trace :=
  if server.m_ServerSocket ≠ INVALID_SOCKET_HANDLE then
    ({ server with m_ServerSocket := INVALID_SOCKET_HANDLE },
      tr ++ [Event.Delete server.m_ServerSocket])
  else (server, tr)

/-- `Connect`: resolve the wildcard address, create, bind and listen on a
stream socket, and read the bound name back into the server. -/
def Connect (env : Env) (server : Server) (port : Nat) (tr : Trace) :
    Result × Server × Trace :=
  let d := Disconnect server tr
  let server := d.1
  let tr := d.2
  let h := env.GetHostByName tr
  let bind_address := h.2
  let tr := tr ++ [Event.GetHostByName h.1 bind_address]
  if h.1 ≠ dmSocket.Result.RESULT_OK then (Result.RESULT_SOCKET_ERROR, server, tr)
  else
    let n := env.SocketNew tr
    let socket := n.2
    let tr := tr ++ [Event.SocketNew n.1 socket]
    if n.1 ≠ dmSocket.Result.RESULT_OK then (Result.RESULT_UNKNOWN, server, tr)
    else
      let tr := tr ++ [Event.SetReuseAddress socket]
      let b := env.Bind tr socket bind_address port
      let tr := tr ++ [Event.Bind socket bind_address port b]
      if b ≠ dmSocket.Result.RESULT_OK then
        (Result.RESULT_SOCKET_ERROR, server, tr ++ [Event.Delete socket])
      else
        let l := env.Listen tr socket 32
        let tr := tr ++ [Event.Listen socket 32 l]
        if l ≠ dmSocket.Result.RESULT_OK then
          (Result.RESULT_SOCKET_ERROR, server, tr ++ [Event.Delete socket])
        else
          let g := env.GetName tr socket
          let address := g.2.1
          let actual_port := g.2.2
          let tr := tr ++ [Event.GetName socket g.1 address actual_port]
          if g.1 ≠ dmSocket.Result.RESULT_OK then
            (Result.RESULT_SOCKET_ERROR, server, tr ++ [Event.Delete socket])
          else
            (Result.RESULT_OK,
              { server with m_Address := address, m_Port := actual_port,
                            m_ServerSocket := socket },
              tr)

/-- What the socket provider hands back to the five calls of a `Connect` that
starts at trace `tr` with nothing to disconnect, each call asked at the trace
`Connect` has reached when it makes it: address resolution, socket creation,
bind, listen and get-name.  The values come from `env` alone. -/
structure ProviderAnswers where
  resolve : dmSocket.Result × Address
  create : dmSocket.Result × Socket
  bind : dmSocket.Result
  listen : dmSocket.Result
  name : dmSocket.Result × Address × Nat

/-- The answers of `env` to the calls of `Connect env _ port` from trace `tr`,
in call order. -/
def providerAnswers (env : Env) (port : Nat) (tr : Trace) : ProviderAnswers :=
  let h := env.GetHostByName tr
  let tr := tr ++ [Event.GetHostByName h.1 h.2]
  let n := env.SocketNew tr
  let tr := tr ++ [Event.SocketNew n.1 n.2]
  let tr := tr ++ [Event.SetReuseAddress n.2]
  let b := env.Bind tr n.2 h.2 port
  let tr := tr ++ [Event.Bind n.2 h.2 port b]
  let l := env.Listen tr n.2 32
  let tr := tr ++ [Event.Listen n.2 32 l]
  let g := env.GetName tr n.2
  { resolve := h, create := n, bind := b, listen := l, name := g }

/-- `New`.  The out-parameter `*server` is the `HServer` component of the
result, the object it points to the `Option Server` component.  The product
`params->m_ConnectionTimeout * 1000000U` is computed in `unsigned int`
(the `uint16_t` operand is promoted to `int` and converted to the unsigned type
of the literal), hence modulo `2^32`, and then widened to `uint64_t`. -/
def New (env : Env) (params : NewParams) (port : Nat) (tr : Trace) :
    Result × HServer × Option Server × Trace :=
  if params.m_HttpRequest = 0 then (Result.RESULT_ERROR_INVAL, HServer.null, none, tr)
  else
    let address := env.NewServer tr
    let ret := Server.init
    let c := Connect env ret port tr
    if c.1 ≠ Result.RESULT_OK then
      (Result.RESULT_SOCKET_ERROR, HServer.null, none, c.2.2)
    else
      let ret := c.2.1
      let ret := { ret with
        m_HttpRequest := params.m_HttpRequest
        m_Userdata := params.m_Userdata
        m_ConnectionTimeout := (params.m_ConnectionTimeout * 1000000) % 2 ^ 32
        m_Connections := ret.m_Connections.SetCapacity params.m_MaxConnections }
      (Result.RESULT_OK, HServer.ptr address, some ret, c.2.2)

/-- `HandleConnection`: build the request context, call the registered
callback, and tell whether the connection is to be kept.  `server` is the
pointer, `s` the object it points to. -/
def HandleConnection (env : Env) (server : HServer) (s : Server) (connection : Connection)
    (tr : Trace) : Bool × Trace :=
  let internal_req : Request :=
    { Request.init with
      m_Result := Result.RESULT_OK
      m_Socket := connection.m_Socket
      m_Server := server }
  let response := env.HttpRequest tr s.m_HttpRequest s.m_Userdata internal_req
  let tr := tr ++ [Event.HttpRequest s.m_HttpRequest s.m_Userdata internal_req response]
  if response.m_Result = Result.RESULT_OK then (!response.m_CloseConnection, tr)
  else (false, tr)

/-- Subtraction of `uint64_t` values. -/
def sub64 (a b : Nat) : Nat := (a % 2 ^ 64 + (2 ^ 64 - b % 2 ^ 64)) % 2 ^ 64

/-- The loop increment `++i` of a `uint32_t` index. -/
def inc32 (i : Nat) : Nat := (i + 1) % 2 ^ 32

/-- The statement `--i` on a `uint32_t` index (0 wraps to `2^32 - 1`). -/
def dec32 (i : Nat) : Nat := (i + (2 ^ 32 - 1)) % 2 ^ 32

/-- The reconnect block at the head of `Update` (lines 200 to 205). -/
def ReconnectPhase (env : Env) (s : Server) (tr : Trace) : Server × Trace :=
  if s.m_Reconnect then
    let tr := tr ++ [Event.LogWarning]
    let c := Connect env s s.m_Port tr
    ({ c.2.1 with m_Reconnect := false }, c.2.2)
  else (s, tr)

/-- The block "Check for new connections" of `Update` (lines 217 to 244);
`selector` is the selector after the first `Select`. -/
def AcceptPhase (env : Env) (s : Server) (selector : Selector) (tr : Trace) :
    Server × Trace :=
  if SelectorIsSet selector s.m_ServerSocket then
    let a := env.Accept tr s.m_ServerSocket
    let r := a.1
    let client_socket := a.2
    let tr := tr ++ [Event.Accept s.m_ServerSocket r client_socket]
    if r = dmSocket.Result.RESULT_OK then
      if s.m_Connections.Full then
        (s, tr ++ [Event.LogWarning, Event.Shutdown client_socket, Event.Delete client_socket])
      else
        let tr := tr ++ [Event.SetNoDelay client_socket]
        let time := env.GetTime tr % 2 ^ 64
        let tr := tr ++ [Event.GetTime time]
        let connection : Connection :=
          { m_Socket := client_socket, m_RequestCount := 0, m_ConnectionTimeStart := time }
        ({ s with m_Connections := s.m_Connections.Push connection }, tr)
    else if r = dmSocket.Result.RESULT_CONNABORTED ∨ r = dmSocket.Result.RESULT_NOTCONN then
      ({ s with m_Reconnect := true }, tr)
    else (s, tr)
  else (s, tr)

/-- The loop "timeout phase" of `Update` (lines 251 to 263), from index `i`.
`none` when the fuel runs out or an index is out of bounds. -/
def TimeoutLoop (timeout current_time : Nat) :
    Nat → dmArray Connection → Nat → Trace → Option (dmArray Connection × Trace)
  | 0, _, _, _ => none
  | fuel + 1, conns, i, tr =>
    if i < conns.Size then
      match conns.data.get? i with
      | none => none
      | some connection =>
        let time_diff := sub64 current_time connection.m_ConnectionTimeStart
        if time_diff > timeout then
          let tr := tr ++ [Event.Shutdown connection.m_Socket, Event.Delete connection.m_Socket]
          let conns := conns.Set i { connection with m_Socket := INVALID_SOCKET_HANDLE }
          let conns := conns.EraseSwap i
          TimeoutLoop timeout current_time fuel conns (inc32 (dec32 i)) tr
        else TimeoutLoop timeout current_time fuel conns (inc32 i) tr
    else some (conns, tr)

/-- The loop "select phase" of `Update` (lines 266 to 270): every pooled
socket is registered in the selector, in index order. -/
def SelectLoop (conns : dmArray Connection) (selector : Selector) : Selector :=
  conns.data.foldl (fun sel connection => SelectorSet sel connection.m_Socket) selector

/-- The loop "handle phase" of `Update` (lines 277 to 292), from index `i`.
`none` when the fuel runs out or an index is out of bounds. -/
def HandleLoop (env : Env) (server : HServer) (s : Server) (selector : Selector) :
    Nat → dmArray Connection → Nat → Trace → Option (dmArray Connection × Trace)
  | 0, _, _, _ => none
  | fuel + 1, conns, i, tr =>
    if i < conns.Size then
      match conns.data.get? i with
      | none => none
      | some connection =>
        if SelectorIsSet selector connection.m_Socket then
          let h := HandleConnection env server { s with m_Connections := conns } connection tr
          let keep_connection := h.1
          let tr := h.2
          if !keep_connection then
            let tr := tr ++ [Event.Shutdown connection.m_Socket, Event.Delete connection.m_Socket]
            let conns := conns.Set i { connection with m_Socket := INVALID_SOCKET_HANDLE }
            let conns := conns.EraseSwap i
            HandleLoop env server s selector fuel conns (inc32 (dec32 i)) tr
          else HandleLoop env server s selector fuel conns (inc32 i) tr
        else HandleLoop env server s selector fuel conns (inc32 i) tr
    else some (conns, tr)

/-- The second half of `Update` (lines 246 to 293): read the clock once,
timeout sweep, read-readiness poll over the pool, dispatch. -/
def UpdateTail (env : Env) (server : HServer) (s : Server) (tr : Trace) :
    Option (Result × Server × Trace) :=
  let selector := SelectorZero []
  let current_time := env.GetTime tr % 2 ^ 64
  let tr := tr ++ [Event.GetTime current_time]
  match TimeoutLoop s.m_ConnectionTimeout current_time (s.m_Connections.Size + 1)
      s.m_Connections 0 tr with
  | none => none
  | some (conns, tr) =>
    let s := { s with m_Connections := conns }
    let selector := SelectLoop s.m_Connections selector
    let p := env.Select tr selector
    let ready := selector.filter p.2
    let tr := tr ++ [Event.Select selector p.1 ready]
    if p.1 ≠ dmSocket.Result.RESULT_OK then some (Result.RESULT_SOCKET_ERROR, s, tr)
    else
      match HandleLoop env server s ready (s.m_Connections.Size + 1) s.m_Connections 0 tr with
      | none => none
      | some (conns, tr) => some (Result.RESULT_OK, { s with m_Connections := conns }, tr)

/-- What the head of `Update` leaves behind: the server after the reconnect
block, the trace, the result of the first `Select` and the selector as `Select`
left it. -/
structure Polled where
  server : Server
  trace : Trace
  result : dmSocket.Result
  selector : Selector

/-- The head of `Update` (lines 200 to 209): the reconnect block, then the
zero-timeout poll of the listening socket. -/
def PollPhase (env : Env) (s : Server) (tr : Trace) : Polled :=
  let c := ReconnectPhase env s tr
  let s := c.1
  let tr := c.2
  let selector := SelectorSet [] s.m_ServerSocket
  let p := env.Select tr selector
  let ready := selector.filter p.2
  { server := s, trace := tr ++ [Event.Select selector p.1 ready], result := p.1,
    selector := ready }

/-- `Update`: deferred reconnect and poll of the listening socket
(`PollPhase`), accept (`AcceptPhase`), then `UpdateTail`.  `server` is the
handle, `s` the server object it points to. -/
def Update (env : Env) (server : HServer) (s : Server) (tr : Trace) :
    Option (Result × Server × Trace) :=
  let h := PollPhase env s tr
  if h.result ≠ dmSocket.Result.RESULT_OK then
    some (Result.RESULT_SOCKET_ERROR, h.server, h.trace)
  else
    let a := AcceptPhase env h.server h.selector h.trace
    UpdateTail env server a.1 a.2

/-- The state of an `Update` call after its accept block: the server and the
trace `UpdateTail` starts from when the first poll succeeded. -/
def AfterAccept (env : Env) (s : Server) (tr : Trace) : Server × Trace :=
  AcceptPhase env (PollPhase env s tr).server (PollPhase env s tr).selector
    (PollPhase env s tr).trace

/-- A sequence of `Update` calls on one server, one environment per call (the
results of the calls are dropped, as a caller that keeps ticking does). -/
def UpdateSeq (server : HServer) : List Env → Server → Trace → Option (Server × Trace)
  | [], s, tr => some (s, tr)
  | env :: envs, s, tr =>
    match Update env server s tr with
    | none => none
    | some (_, s, tr) => UpdateSeq server envs s tr

/-- `GetName`: the bound address and port. -/
def GetName (s : Server) : Address × Nat := (s.m_Address, s.m_Port)

/-- The two calls that close a client socket: shutdown, then delete. -/
def closeEvents (c : Connection) : List Event :=
  [Event.Shutdown c.m_Socket, Event.Delete c.m_Socket]

/-- The test of the timeout sweep (line 255): the elapsed time, computed in
`uint64_t`, is greater than the timeout. -/
def expired (timeout current_time : Nat) (c : Connection) : Bool :=
  decide (sub64 current_time c.m_ConnectionTimeStart > timeout)

/-- The request context `HandleConnection` hands to the callback for a pooled
socket: result OK, the socket, the server back-reference, everything else as
the constructor left it. -/
def mkRequest (server : HServer) (socket : Socket) : Request :=
  { Request.init with
    m_Result := Result.RESULT_OK
    m_Socket := socket
    m_Server := server }

/-- The verdict `HandleConnection` reads off the request the callback left
behind: keep the connection when the result is OK and the close flag is
clear. -/
def keepResponse (response : Request) : Bool :=
  decide (response.m_Result = Result.RESULT_OK) && !response.m_CloseConnection

/-- The calls made for one dispatched connection: the callback, and the two
closing calls when the connection is not kept. -/
def dispatchEvents (server : HServer) (s : Server) (d : Connection × Request) : List Event :=
  Event.HttpRequest s.m_HttpRequest s.m_Userdata (mkRequest server d.1.m_Socket) d.2 ::
    (if keepResponse d.2 then [] else closeEvents d.1)

/-- A step of `Connect` that reported failure: one of the five socket-provider
calls whose result `Connect` checks (address resolution, socket creation, bind,
listen, get-name), with a result other than OK. -/
def Event.stepFailed : Event → Bool
  | Event.GetHostByName r _ => decide (r ≠ dmSocket.Result.RESULT_OK)
  | Event.SocketNew r _ => decide (r ≠ dmSocket.Result.RESULT_OK)
  | Event.Bind _ _ _ r => decide (r ≠ dmSocket.Result.RESULT_OK)
  | Event.Listen _ _ r => decide (r ≠ dmSocket.Result.RESULT_OK)
  | Event.GetName _ r _ _ => decide (r ≠ dmSocket.Result.RESULT_OK)
  | _ => false

/-- The calls the reconnect block can make: the warning, deleting a listening
socket, and the steps of `Connect`. -/
def Event.isConnectStep : Event → Bool
  | Event.LogWarning => true
  | Event.Delete _ => true
  | Event.GetHostByName _ _ => true
  | Event.SocketNew _ _ => true
  | Event.SetReuseAddress _ => true
  | Event.Bind _ _ _ _ => true
  | Event.Listen _ _ _ => true
  | Event.GetName _ _ _ _ => true
  | _ => false

/-- The request contexts handed to the callback in a trace, in call order. -/
def dispatchedRequests (evs : Trace) : List Request :=
  evs.filterMap (fun e =>
    match e with
    | Event.HttpRequest _ _ request _ => some request
    | _ => none)

/-- The callback invocations of a trace, in call order: the socket the request
context carried, and the request context as the callback left it. -/
def dispatchLog (evs : Trace) : List (Socket × Request) :=
  evs.filterMap (fun e =>
    match e with
    | Event.HttpRequest _ _ request response => some (request.m_Socket, response)
    | _ => none)

/-- A scripted behaviour of the collaborators, for concrete runs: every step of
`Connect` succeeds (listening socket 3, port 8080); the first poll of a call
reports `poll1`, a later poll `poll2`; `ready` tells which sockets are readable;
`Accept` hands back `accept`; the clock reads `time`; the callback turns the
request context into `respond request`. -/
def scriptEnv (poll1 poll2 : dmSocket.Result) (ready : Socket → Bool)
    (accept : dmSocket.Result × Socket) (time : Nat) (respond : Request → Request) : Env :=
  { GetHostByName := fun _ => (dmSocket.Result.RESULT_OK, 0)
    SocketNew := fun _ => (dmSocket.Result.RESULT_OK, 3)
    Bind := fun _ _ _ _ => dmSocket.Result.RESULT_OK
    Listen := fun _ _ _ => dmSocket.Result.RESULT_OK
    GetName := fun _ _ => (dmSocket.Result.RESULT_OK, 0, 8080)
    Select := fun tr _ =>
      (if tr.any (fun e => match e with
          | Event.Select _ _ _ => true
          | _ => false) then poll2 else poll1, ready)
    Accept := fun _ _ => accept
    GetTime := fun _ => time
    HttpRequest := fun _ _ _ request => respond request
    NewServer := fun _ => 1 }

/-- A server as `New` leaves it on port 8080 with listening socket 3 and
callback 1, with the given timeout (in microseconds), capacity and pool. -/
def demoServer (timeout capacity : Nat) (pool : List Connection) : Server :=
  { m_Address := 0
    m_Port := 8080
    m_HttpRequest := 1
    m_Userdata := 0
    m_ConnectionTimeout := timeout
    m_Connections := { data := pool, capacity := capacity }
    m_ServerSocket := 3
    m_Reconnect := false }

/-- Nothing is ready, `Accept` is never reached, the clock reads 0. -/
def quietEnv : Env :=
  scriptEnv dmSocket.Result.RESULT_OK dmSocket.Result.RESULT_OK (fun _ => false)
    (dmSocket.Result.RESULT_OTHER 11, -1) 0 id

/-- The params of a server with callback 1, 16 connections, 60 seconds. -/
def demoParams : NewParams :=
  { m_Userdata := 0, m_HttpRequest := 1, m_MaxConnections := 16, m_ConnectionTimeout := 60 }

/-- The calls of a `Connect` in which every step succeeds under `scriptEnv`. -/
def demoConnectTrace : Trace :=
  [Event.GetHostByName dmSocket.Result.RESULT_OK 0,
   Event.SocketNew dmSocket.Result.RESULT_OK 3,
   Event.SetReuseAddress 3,
   Event.Bind 3 0 8080 dmSocket.Result.RESULT_OK,
   Event.Listen 3 32 dmSocket.Result.RESULT_OK,
   Event.GetName 3 dmSocket.Result.RESULT_OK 0 8080]

/-- Scenario A: only the listening socket 3 is readable and `Accept` hands
out socket 6. -/
def scenarioAEnv : Env :=
  scriptEnv dmSocket.Result.RESULT_OK dmSocket.Result.RESULT_OK (fun socket => socket == 3)
    (dmSocket.Result.RESULT_OK, 6) 0 id

/-- Scenario A: capacity 1, timeout 60 s, one open connection on socket 5. -/
def scenarioAServer : Server :=
  demoServer 60000000 1 [{ m_Socket := 5, m_RequestCount := 0, m_ConnectionTimeStart := 0 }]

/-- Scenario B: nothing is readable and the clock reads 2 s. -/
def scenarioBEnv : Env :=
  scriptEnv dmSocket.Result.RESULT_OK dmSocket.Result.RESULT_OK (fun _ => false)
    (dmSocket.Result.RESULT_OTHER 11, -1) 2000000 id

/-- Scenario B: timeout 1 s, one connection on socket 5 accepted at time 0. -/
def scenarioBServer : Server :=
  demoServer 1000000 16 [{ m_Socket := 5, m_RequestCount := 0, m_ConnectionTimeStart := 0 }]

/-- A dispatch scenario: the sockets 5 and 7 are readable, and the callback
sets the close flag on the request for socket 5 and leaves the others alone. -/
def dispatchEnv : Env :=
  scriptEnv dmSocket.Result.RESULT_OK dmSocket.Result.RESULT_OK
    (fun socket => socket == 5 || socket == 7)
    (dmSocket.Result.RESULT_OTHER 11, -1) 0
    (fun request =>
      if request.m_Socket == 5 then { request with m_CloseConnection := true } else request)

/-- A dispatch scenario: three open connections on the sockets 5, 6 and 7. -/
def dispatchServer : Server :=
  demoServer 60000000 16
    [{ m_Socket := 5, m_RequestCount := 0, m_ConnectionTimeStart := 0 },
     { m_Socket := 6, m_RequestCount := 0, m_ConnectionTimeStart := 0 },
     { m_Socket := 7, m_RequestCount := 0, m_ConnectionTimeStart := 0 }]

/-- A busy tick: the listening socket 3 and the client sockets 5 and 6 are
readable, `Accept` hands out socket 6, and the callback sets the close flag on
every request. -/
def busyEnv : Env :=
  scriptEnv dmSocket.Result.RESULT_OK dmSocket.Result.RESULT_OK
    (fun socket => socket == 3 || socket == 5 || socket == 6)
    (dmSocket.Result.RESULT_OK, 6) 0
    (fun request => { request with m_CloseConnection := true })

/-- Two open connections, on the sockets 5 and 7. -/
def busyServer : Server :=
  demoServer 60000000 16
    [{ m_Socket := 5, m_RequestCount := 0, m_ConnectionTimeStart := 0 },
     { m_Socket := 7, m_RequestCount := 0, m_ConnectionTimeStart := 0 }]

/-- Params with callback 1, 16 connections and a timeout of 4295 seconds. -/
def wrapParams : NewParams :=
  { m_Userdata := 0, m_HttpRequest := 1, m_MaxConnections := 16, m_ConnectionTimeout := 4295 }

/-- The first poll of the call succeeds, every later poll fails; nothing is
readable; the clock reads 2 s. -/
def secondPollFailsEnv : Env :=
  scriptEnv dmSocket.Result.RESULT_OK (dmSocket.Result.RESULT_OTHER 1) (fun _ => false)
    (dmSocket.Result.RESULT_OTHER 11, -1) 2000000 id

/-- The provider's answers under `createFailsEnv`: only socket creation
fails. -/
def createFailsAnswers : ProviderAnswers :=
  { resolve := (dmSocket.Result.RESULT_OK, 0)
    create := (dmSocket.Result.RESULT_OTHER 7, -1)
    bind := dmSocket.Result.RESULT_OK
    listen := dmSocket.Result.RESULT_OK
    name := (dmSocket.Result.RESULT_OK, 0, 8080) }

/-- As `quietEnv`, but socket creation fails. -/
def createFailsEnv : Env :=
  { quietEnv with SocketNew := fun _ => (dmSocket.Result.RESULT_OTHER 7, -1) }

/-- As `quietEnv`, but bind fails. -/
def bindFailsEnv : Env :=
  { quietEnv with Bind := fun _ _ _ _ => dmSocket.Result.RESULT_OTHER 5 }

/-- As `quietEnv`, but address resolution fails. -/
def resolveFailsEnv : Env :=
  { quietEnv with GetHostByName := fun _ => (dmSocket.Result.RESULT_OTHER 2, 0) }

/-- As `quietEnv`, but listen fails. -/
def listenFailsEnv : Env :=
  { quietEnv with Listen := fun _ _ _ => dmSocket.Result.RESULT_OTHER 4 }

/-- As `quietEnv`, but get-name fails. -/
def nameFailsEnv : Env :=
  { quietEnv with GetName := fun _ _ => (dmSocket.Result.RESULT_OTHER 9, 0, 0) }

/-- Scenario C: the client socket 5 is readable at every tick, the clock reads
`time`, and the callback leaves result OK and the close flag clear. -/
def scenarioCEnv (time : Nat) : Env :=
  scriptEnv dmSocket.Result.RESULT_OK dmSocket.Result.RESULT_OK (fun socket => socket == 5)
    (dmSocket.Result.RESULT_OTHER 11, -1) time id

end wsHttpServer

/-- Modelled from the spec: the representation invariant of `dmArray`: the size
is within the capacity, and the capacity is a `uint32_t`. -/
def dmArray.Valid {α : Type} (a : dmArray α) : Prop :=
  a.Size ≤ a.Capacity ∧ a.Capacity < 2 ^ 32

instance {α : Type} (a : dmArray α) : Decidable a.Valid :=
  inferInstanceAs (Decidable (_ ∧ _))

/-! ## Auxiliary facts -/

namespace dmArray

variable {α : Type}

theorem set_eraseSwap_last (pre : List α) (c x : α) (cap : Nat) :
    (dmArray.Set ⟨pre ++ [c], cap⟩ pre.length x).EraseSwap pre.length = ⟨pre, cap⟩ := by
  simp [dmArray.Set, dmArray.EraseSwap]

theorem set_eraseSwap_mid (pre mid : List α) (c l x : α) (cap : Nat) :
    (dmArray.Set ⟨pre ++ c :: (mid ++ [l]), cap⟩ pre.length x).EraseSwap pre.length
      = ⟨pre ++ l :: mid, cap⟩ := by
  have h1 : (x :: (mid ++ [l])).getLast? = some l := by
    rw [← List.cons_append, List.getLast?_append]; simp
  have h2 : (l :: (mid ++ [l])).dropLast = l :: mid := by
    rw [← List.cons_append, List.dropLast_concat]
  simp [dmArray.Set, dmArray.EraseSwap, h1, h2]

end dmArray

namespace wsHttpServer

open dmSocket (Socket Address Selector INVALID_SOCKET_HANDLE SelectorZero SelectorSet
  SelectorIsSet)

theorem inc32_dec32 (i : Nat) (h : i < 2 ^ 32) : inc32 (dec32 i) = i := by
  unfold inc32 dec32; omega

theorem inc32_of_lt (i : Nat) (h : i + 1 < 2 ^ 32) : inc32 i = i + 1 := by
  unfold inc32; omega

theorem TimeoutLoop_spec (timeout now cap : Nat) :
    ∀ (fuel : Nat) (rest pre : List Connection) (tr : Trace),
      rest.length < fuel → (pre ++ rest).length < 2 ^ 32 →
      ∃ kept evicted,
        TimeoutLoop timeout now fuel ⟨pre ++ rest, cap⟩ pre.length tr
          = some (⟨pre ++ kept, cap⟩, tr ++ evicted.flatMap closeEvents) ∧
        List.Perm kept (rest.filter (fun c => !expired timeout now c)) ∧
        List.Perm evicted (rest.filter (expired timeout now)) := by
  intro fuel
  induction fuel with
  | zero => intro rest pre tr h; omega
  | succ fuel ih =>
    intro rest pre tr hfuel hlen
    cases rest with
    | nil =>
      refine ⟨[], [], ?_, ?_, ?_⟩ <;> simp [TimeoutLoop, dmArray.Size]
    | cons c post =>
      have hi : pre.length < (pre ++ c :: post).length := by simp
      have hget : (pre ++ c :: post).get? pre.length = some c := by
        rw [List.get?_eq_getElem?, List.getElem?_append_right (le_refl _)]; simp
      simp only [List.length_append, List.length_cons] at hlen hfuel
      by_cases hexp : expired timeout now c = true
      · have hgt : sub64 now c.m_ConnectionTimeStart > timeout := by
          simpa [expired] using hexp
        rcases List.eq_nil_or_concat post with hpost | ⟨mid, l, hpost⟩
        · subst hpost
          obtain ⟨kept, evicted, hrun, hk, he⟩ := ih [] pre
            (tr ++ closeEvents c) (by simp; omega) (by simp; omega)
          refine ⟨kept, c :: evicted, ?_, ?_, ?_⟩
          · simp only [TimeoutLoop, dmArray.Size, hi, hget, if_true, hgt]
            rw [dmArray.set_eraseSwap_last, inc32_dec32 _ (by omega)]
            simp only [List.append_nil] at hrun
            simpa [closeEvents, List.flatMap] using hrun
          · simpa [hexp] using hk
          · simpa [hexp] using he
        · rw [List.concat_eq_append] at hpost
          subst hpost
          simp only [List.length_append, List.length_singleton] at hlen hfuel
          obtain ⟨kept, evicted, hrun, hk, he⟩ := ih (l :: mid) pre
            (tr ++ closeEvents c) (by simp; omega) (by simp; omega)
          refine ⟨kept, c :: evicted, ?_, ?_, ?_⟩
          · simp only [TimeoutLoop, dmArray.Size, hi, hget, if_true, hgt]
            rw [dmArray.set_eraseSwap_mid, inc32_dec32 _ (by omega)]
            simpa [closeEvents, List.flatMap] using hrun
          · have hp : List.Perm (l :: mid) (mid ++ [l]) := by
              simpa using (List.perm_append_comm : List.Perm ([l] ++ mid) (mid ++ [l]))
            simpa [hexp] using hk.trans (hp.filter _)
          · have hp : List.Perm (l :: mid) (mid ++ [l]) := by
              simpa using (List.perm_append_comm : List.Perm ([l] ++ mid) (mid ++ [l]))
            have := he.trans (hp.filter _)
            simpa [hexp] using this
      · have hle : ¬ sub64 now c.m_ConnectionTimeStart > timeout := by
          simpa [expired] using hexp
        obtain ⟨kept, evicted, hrun, hk, he⟩ := ih post (pre ++ [c]) tr
          (by omega) (by simp; omega)
        refine ⟨c :: kept, evicted, ?_, ?_, ?_⟩
        · simp only [TimeoutLoop, dmArray.Size, hi, hget, if_true, hle, if_false]
          rw [inc32_of_lt _ (by omega)]
          simpa using hrun
        · simpa [hexp] using hk
        · simpa [hexp] using he

theorem HandleConnection_eq (env : Env) (server : HServer) (s : Server) (c : Connection)
    (tr : Trace) :
    HandleConnection env server s c tr =
      (keepResponse (env.HttpRequest tr s.m_HttpRequest s.m_Userdata (mkRequest server c.m_Socket)),
        tr ++ [Event.HttpRequest s.m_HttpRequest s.m_Userdata (mkRequest server c.m_Socket)
          (env.HttpRequest tr s.m_HttpRequest s.m_Userdata (mkRequest server c.m_Socket))]) := by
  unfold HandleConnection keepResponse mkRequest
  by_cases h : (env.HttpRequest tr s.m_HttpRequest s.m_Userdata
      { Request.init with m_Result := Result.RESULT_OK, m_Socket := c.m_Socket,
                          m_Server := server }).m_Result = Result.RESULT_OK
  · simp [h]
  · simp [h]

theorem perm_rotate {α : Type} (l : α) (mid : List α) : List.Perm (l :: mid) (mid ++ [l]) := by
  simpa using (List.perm_append_comm : List.Perm ([l] ++ mid) (mid ++ [l]))

theorem HandleLoop_spec (env : Env) (server : HServer) (s : Server) (selector : Selector)
    (cap : Nat) :
    ∀ (fuel : Nat) (rest pre : List Connection) (tr : Trace),
      rest.length < fuel → (pre ++ rest).length < 2 ^ 32 →
      ∃ (log : List (Connection × Request)) (kept : List Connection),
        HandleLoop env server s selector fuel ⟨pre ++ rest, cap⟩ pre.length tr
          = some (⟨pre ++ kept, cap⟩, tr ++ log.flatMap (dispatchEvents server s)) ∧
        List.Perm (log.map Prod.fst)
          (rest.filter (fun c => SelectorIsSet selector c.m_Socket)) ∧
        List.Perm kept
          (rest.filter (fun c => !SelectorIsSet selector c.m_Socket) ++
            (log.filter (fun d => keepResponse d.2)).map Prod.fst) := by
  intro fuel
  induction fuel with
  | zero => intro rest pre tr h; omega
  | succ fuel ih =>
    intro rest pre tr hfuel hlen
    cases rest with
    | nil =>
      refine ⟨[], [], ?_, ?_, ?_⟩ <;> simp [HandleLoop, dmArray.Size]
    | cons c post =>
      have hi : pre.length < (pre ++ c :: post).length := by simp
      have hget : (pre ++ c :: post).get? pre.length = some c := by
        rw [List.get?_eq_getElem?, List.getElem?_append_right (le_refl _)]; simp
      simp only [List.length_append, List.length_cons] at hlen hfuel
      by_cases hready : SelectorIsSet selector c.m_Socket = true
      · generalize hresp :
          env.HttpRequest tr s.m_HttpRequest s.m_Userdata (mkRequest server c.m_Socket) = resp
        by_cases hkeep : keepResponse resp = true
        · obtain ⟨log, kept, hrun, hl, hk⟩ := ih post (pre ++ [c])
            (tr ++ dispatchEvents server s (c, resp)) (by omega) (by simp; omega)
          refine ⟨(c, resp) :: log, c :: kept, ?_, ?_, ?_⟩
          · simp only [HandleLoop, dmArray.Size, hi, hget, if_true, hready,
              HandleConnection_eq, hresp, hkeep, Bool.not_true, Bool.false_eq_true, if_false]
            rw [inc32_of_lt _ (by omega)]
            simpa [dispatchEvents, hkeep, List.flatMap] using hrun
          · simpa [hready] using hl
          · have := (List.Perm.cons c hk).trans List.perm_middle.symm
            simpa [hready, hkeep] using this
        · have hkeep' : keepResponse resp = false := by simpa using hkeep
          rcases List.eq_nil_or_concat post with hpost | ⟨mid, l, hpost⟩
          · subst hpost
            obtain ⟨log, kept, hrun, hl, hk⟩ := ih [] pre
              (tr ++ dispatchEvents server s (c, resp)) (by simp; omega) (by simp; omega)
            refine ⟨(c, resp) :: log, kept, ?_, ?_, ?_⟩
            · simp only [HandleLoop, dmArray.Size, hi, hget, if_true, hready,
                HandleConnection_eq, hresp, hkeep', Bool.not_false]
              rw [dmArray.set_eraseSwap_last, inc32_dec32 _ (by omega)]
              simp only [List.append_nil] at hrun
              simpa [dispatchEvents, hkeep', closeEvents, List.flatMap] using hrun
            · simpa [hready] using hl
            · simpa [hready, hkeep'] using hk
          · rw [List.concat_eq_append] at hpost
            subst hpost
            simp only [List.length_append, List.length_singleton] at hlen hfuel
            obtain ⟨log, kept, hrun, hl, hk⟩ := ih (l :: mid) pre
              (tr ++ dispatchEvents server s (c, resp)) (by simp; omega) (by simp; omega)
            refine ⟨(c, resp) :: log, kept, ?_, ?_, ?_⟩
            · simp only [HandleLoop, dmArray.Size, hi, hget, if_true, hready,
                HandleConnection_eq, hresp, hkeep', Bool.not_false]
              rw [dmArray.set_eraseSwap_mid, inc32_dec32 _ (by omega)]
              simpa [dispatchEvents, hkeep', closeEvents, List.flatMap] using hrun
            · have := hl.trans ((perm_rotate l mid).filter _)
              simpa [hready] using this
            · have := hk.trans (List.Perm.append_right _ ((perm_rotate l mid).filter _))
              simpa [hready, hkeep'] using this
      · have hready' : SelectorIsSet selector c.m_Socket = false := by simpa using hready
        obtain ⟨log, kept, hrun, hl, hk⟩ := ih post (pre ++ [c]) tr
          (by omega) (by simp; omega)
        refine ⟨log, c :: kept, ?_, ?_, ?_⟩
        · simp only [HandleLoop, dmArray.Size, hi, hget, if_true, hready',
            Bool.false_eq_true, if_false]
          rw [inc32_of_lt _ (by omega)]
          simpa using hrun
        · simpa [hready'] using hl
        · simpa [hready'] using hk

theorem SelectLoop_eq (conns : dmArray Connection) (selector : Selector) :
    SelectLoop conns selector = selector ++ conns.data.map (fun c => c.m_Socket) := by
  unfold SelectLoop SelectorSet
  generalize conns.data = l
  induction l generalizing selector with
  | nil => simp
  | cons c l ih => simp [List.foldl_cons, ih]

theorem UpdateTail_spec (env : Env) (server : HServer) (s : Server) (tr : Trace)
    (hlen : s.m_Connections.Size < 2 ^ 32) :
    ∃ kept evicted,
      List.Perm kept (s.m_Connections.data.filter
        (fun c => !expired s.m_ConnectionTimeout (env.GetTime tr % 2 ^ 64) c)) ∧
      List.Perm evicted (s.m_Connections.data.filter
        (expired s.m_ConnectionTimeout (env.GetTime tr % 2 ^ 64))) ∧
      TimeoutLoop s.m_ConnectionTimeout (env.GetTime tr % 2 ^ 64) (s.m_Connections.Size + 1)
          s.m_Connections 0 (tr ++ [Event.GetTime (env.GetTime tr % 2 ^ 64)])
        = some (⟨kept, s.m_Connections.capacity⟩,
            tr ++ [Event.GetTime (env.GetTime tr % 2 ^ 64)] ++ evicted.flatMap closeEvents) ∧
      ∀ tr2 sel p ready tr3,
        tr2 = tr ++ [Event.GetTime (env.GetTime tr % 2 ^ 64)] ++ evicted.flatMap closeEvents →
        sel = kept.map (fun c => c.m_Socket) →
        p = env.Select tr2 sel →
        ready = sel.filter p.2 →
        tr3 = tr2 ++ [Event.Select sel p.1 ready] →
        (p.1 ≠ dmSocket.Result.RESULT_OK →
          UpdateTail env server s tr = some (Result.RESULT_SOCKET_ERROR,
            { s with m_Connections := ⟨kept, s.m_Connections.capacity⟩ }, tr3)) ∧
        (p.1 = dmSocket.Result.RESULT_OK →
          ∃ (log : List (Connection × Request)) (kept2 : List Connection),
            HandleLoop env server { s with m_Connections := ⟨kept, s.m_Connections.capacity⟩ }
                ready (kept.length + 1) ⟨kept, s.m_Connections.capacity⟩ 0 tr3
              = some (⟨kept2, s.m_Connections.capacity⟩,
                  tr3 ++ log.flatMap (dispatchEvents server s)) ∧
            UpdateTail env server s tr = some (Result.RESULT_OK,
              { s with m_Connections := ⟨kept2, s.m_Connections.capacity⟩ },
              tr3 ++ log.flatMap (dispatchEvents server s)) ∧
            List.Perm (log.map Prod.fst)
              (kept.filter (fun c => SelectorIsSet ready c.m_Socket)) ∧
            List.Perm kept2
              (kept.filter (fun c => !SelectorIsSet ready c.m_Socket) ++
                (log.filter (fun d => keepResponse d.2)).map Prod.fst)) := by
  obtain ⟨kept, evicted, hrun, hk, he⟩ :=
    TimeoutLoop_spec s.m_ConnectionTimeout (env.GetTime tr % 2 ^ 64) s.m_Connections.capacity
      (s.m_Connections.Size + 1) s.m_Connections.data []
      (tr ++ [Event.GetTime (env.GetTime tr % 2 ^ 64)])
      (by simp [dmArray.Size]) (by simpa [dmArray.Size] using hlen)
  simp only [List.nil_append, List.length_nil] at hrun
  have hrun : TimeoutLoop s.m_ConnectionTimeout (env.GetTime tr % 2 ^ 64)
      (s.m_Connections.Size + 1) s.m_Connections 0
      (tr ++ [Event.GetTime (env.GetTime tr % 2 ^ 64)])
      = some (⟨kept, s.m_Connections.capacity⟩,
          tr ++ [Event.GetTime (env.GetTime tr % 2 ^ 64)] ++ evicted.flatMap closeEvents) := hrun
  refine ⟨kept, evicted, hk, he, hrun, ?_⟩
  have hkl : kept.length < 2 ^ 32 := by
    have := hk.length_eq
    have h2 := List.length_filter_le
      (fun c => !expired s.m_ConnectionTimeout (env.GetTime tr % 2 ^ 64) c) s.m_Connections.data
    simp only [dmArray.Size] at hlen
    omega
  intro tr2 sel p ready tr3 htr2 hsel hp hready htr3
  subst htr2 hsel hp hready htr3
  constructor
  · intro hne
    simp only [UpdateTail, hrun, SelectLoop_eq, SelectorZero, List.nil_append, ne_eq, hne,
      not_false_eq_true, if_true]
  · intro hok
    obtain ⟨log, kept2, hrun2, hl, hk2⟩ :=
      HandleLoop_spec env server { s with m_Connections := ⟨kept, s.m_Connections.capacity⟩ }
        (List.filter
          (env.Select (tr ++ [Event.GetTime (env.GetTime tr % 2 ^ 64)] ++
            evicted.flatMap closeEvents) (kept.map (fun c => c.m_Socket))).2
          (kept.map (fun c => c.m_Socket)))
        s.m_Connections.capacity (kept.length + 1) kept []
        (tr ++ [Event.GetTime (env.GetTime tr % 2 ^ 64)] ++ evicted.flatMap closeEvents ++
          [Event.Select (kept.map (fun c => c.m_Socket))
            (env.Select (tr ++ [Event.GetTime (env.GetTime tr % 2 ^ 64)] ++
              evicted.flatMap closeEvents) (kept.map (fun c => c.m_Socket))).1
            (List.filter
              (env.Select (tr ++ [Event.GetTime (env.GetTime tr % 2 ^ 64)] ++
                evicted.flatMap closeEvents) (kept.map (fun c => c.m_Socket))).2
              (kept.map (fun c => c.m_Socket)))])
        (by simp) (by simpa using hkl)
    simp only [List.nil_append, List.length_nil] at hrun2
    have hde : dispatchEvents server { s with m_Connections := ⟨kept, s.m_Connections.capacity⟩ }
        = dispatchEvents server s := by
      funext d; simp [dispatchEvents]
    rw [hde] at hrun2
    refine ⟨log, kept2, hrun2, ?_, hl, hk2⟩
    have hsz : dmArray.Size (⟨kept, s.m_Connections.capacity⟩ : dmArray Connection)
        = kept.length := rfl
    simp only [UpdateTail, hrun, SelectLoop_eq, SelectorZero, List.nil_append, ne_eq]
    rw [if_neg (not_not.mpr hok), hsz, hrun2]

theorem Disconnect_spec (server : Server) (tr : Trace) :
    ∃ evs, (Disconnect server tr).2 = tr ++ evs ∧
      (∀ e ∈ evs, e.stepFailed = false ∧ e.isConnectStep = true) ∧
      (server.m_ServerSocket = INVALID_SOCKET_HANDLE → evs = []) ∧
      (Disconnect server tr).1 = { server with m_ServerSocket := INVALID_SOCKET_HANDLE } := by
  unfold Disconnect
  by_cases h : server.m_ServerSocket = INVALID_SOCKET_HANDLE
  · refine ⟨[], ?_, ?_, ?_, ?_⟩
    · simp [h]
    · simp
    · simp
    · simp only [ne_eq, h, not_true_eq_false, if_false]
      cases server
      simp_all
  · refine ⟨[Event.Delete server.m_ServerSocket], ?_, ?_, ?_, ?_⟩
    · simp [h]
    · simp [Event.stepFailed, Event.isConnectStep]
    · intro h'; exact absurd h' h
    · simp [h]

theorem Connect_spec (env : Env) (server : Server) (port : Nat) (tr : Trace) :
    ∃ evs, (Connect env server port tr).2.2 = tr ++ evs ∧
      ((Connect env server port tr).1 = Result.RESULT_OK ↔ ∀ e ∈ evs, e.stepFailed = false) ∧
      (∀ e ∈ evs, e.isConnectStep = true) ∧
      (server.m_ServerSocket = INVALID_SOCKET_HANDLE →
        (Connect env server port tr).1 = Result.RESULT_OK →
        ∃ bind_address socket address actual_port,
          evs = [Event.GetHostByName dmSocket.Result.RESULT_OK bind_address,
                 Event.SocketNew dmSocket.Result.RESULT_OK socket,
                 Event.SetReuseAddress socket,
                 Event.Bind socket bind_address port dmSocket.Result.RESULT_OK,
                 Event.Listen socket 32 dmSocket.Result.RESULT_OK,
                 Event.GetName socket dmSocket.Result.RESULT_OK address actual_port]) ∧
      (Connect env server port tr).2.1.m_Connections = server.m_Connections ∧
      (Connect env server port tr).2.1.m_ConnectionTimeout = server.m_ConnectionTimeout ∧
      (Connect env server port tr).2.1.m_HttpRequest = server.m_HttpRequest ∧
      (Connect env server port tr).2.1.m_Userdata = server.m_Userdata ∧
      (Connect env server port tr).2.1.m_Reconnect = server.m_Reconnect := by
  obtain ⟨devs, hd, hdev, hnil, hds⟩ := Disconnect_spec server tr
  have hdf : ∀ e ∈ devs, e.stepFailed = false := fun e he => (hdev e he).1
  have hdv : ∀ e ∈ devs, e.isConnectStep = true := fun e he => (hdev e he).2
  unfold Connect
  simp only [hd, hds]
  clear hd hds hdev
  generalize env.GetHostByName (tr ++ devs) = h
  by_cases h1 : h.1 = dmSocket.Result.RESULT_OK
  swap
  · rw [if_pos h1]
    simp only [List.append_assoc]
    refine ⟨_, rfl, ?_, ?_, ?_, ?_⟩
    · simp only [List.forall_mem_append, List.forall_mem_cons, List.forall_mem_singleton,
        List.singleton_append]
      simp [Event.stepFailed, h1]
    · simp only [List.forall_mem_append, List.forall_mem_cons, List.forall_mem_singleton,
        List.singleton_append]
      exact ⟨hdv, by simp [Event.isConnectStep]⟩
    · intro _ hok; exact absurd hok (by decide)
    · simp
  rw [if_neg (not_not.mpr h1)]
  generalize env.SocketNew (tr ++ devs ++ [Event.GetHostByName h.1 h.2]) = n
  by_cases h2 : n.1 = dmSocket.Result.RESULT_OK
  swap
  · rw [if_pos h2]
    simp only [List.append_assoc]
    refine ⟨_, rfl, ?_, ?_, ?_, ?_⟩
    · simp only [List.forall_mem_append, List.forall_mem_cons, List.forall_mem_singleton,
        List.singleton_append]
      simp [Event.stepFailed, h1, h2]
    · simp only [List.forall_mem_append, List.forall_mem_cons, List.forall_mem_singleton,
        List.singleton_append]
      exact ⟨hdv, by simp [Event.isConnectStep]⟩
    · intro _ hok; exact absurd hok (by decide)
    · simp
  rw [if_neg (not_not.mpr h2)]
  generalize env.Bind (tr ++ devs ++ [Event.GetHostByName h.1 h.2] ++ [Event.SocketNew n.1 n.2]
    ++ [Event.SetReuseAddress n.2]) n.2 h.2 port = b
  by_cases h3 : b = dmSocket.Result.RESULT_OK
  swap
  · rw [if_pos h3]
    simp only [List.append_assoc]
    refine ⟨_, rfl, ?_, ?_, ?_, ?_⟩
    · simp only [List.forall_mem_append, List.forall_mem_cons, List.forall_mem_singleton,
        List.singleton_append]
      simp [Event.stepFailed, h1, h2, h3]
    · simp only [List.forall_mem_append, List.forall_mem_cons, List.forall_mem_singleton,
        List.singleton_append]
      exact ⟨hdv, by simp [Event.isConnectStep]⟩
    · intro _ hok; exact absurd hok (by decide)
    · simp
  rw [if_neg (not_not.mpr h3)]
  generalize env.Listen (tr ++ devs ++ [Event.GetHostByName h.1 h.2] ++ [Event.SocketNew n.1 n.2]
    ++ [Event.SetReuseAddress n.2] ++ [Event.Bind n.2 h.2 port b]) n.2 32 = l
  by_cases h4 : l = dmSocket.Result.RESULT_OK
  swap
  · rw [if_pos h4]
    simp only [List.append_assoc]
    refine ⟨_, rfl, ?_, ?_, ?_, ?_⟩
    · simp only [List.forall_mem_append, List.forall_mem_cons, List.forall_mem_singleton,
        List.singleton_append]
      simp [Event.stepFailed, h1, h2, h3, h4]
    · simp only [List.forall_mem_append, List.forall_mem_cons, List.forall_mem_singleton,
        List.singleton_append]
      exact ⟨hdv, by simp [Event.isConnectStep]⟩
    · intro _ hok; exact absurd hok (by decide)
    · simp
  rw [if_neg (not_not.mpr h4)]
  generalize env.GetName (tr ++ devs ++ [Event.GetHostByName h.1 h.2] ++ [Event.SocketNew n.1 n.2]
    ++ [Event.SetReuseAddress n.2] ++ [Event.Bind n.2 h.2 port b] ++ [Event.Listen n.2 32 l])
    n.2 = g
  by_cases h5 : g.1 = dmSocket.Result.RESULT_OK
  swap
  · rw [if_pos h5]
    simp only [List.append_assoc]
    refine ⟨_, rfl, ?_, ?_, ?_, ?_⟩
    · simp only [List.forall_mem_append, List.forall_mem_cons, List.forall_mem_singleton,
        List.singleton_append]
      simp [Event.stepFailed, h1, h2, h3, h4, h5]
    · simp only [List.forall_mem_append, List.forall_mem_cons, List.forall_mem_singleton,
        List.singleton_append]
      exact ⟨hdv, by simp [Event.isConnectStep]⟩
    · intro _ hok; exact absurd hok (by decide)
    · simp
  rw [if_neg (not_not.mpr h5)]
  simp only [List.append_assoc]
  refine ⟨_, rfl, ?_, ?_, ?_, ?_⟩
  · simp only [List.forall_mem_append, List.forall_mem_cons, List.forall_mem_singleton,
      List.singleton_append]
    exact iff_of_true trivial ⟨hdf, by simp [Event.stepFailed, h1, h2, h3, h4, h5]⟩
  · simp only [List.forall_mem_append, List.forall_mem_cons, List.forall_mem_singleton,
      List.singleton_append]
    exact ⟨hdv, by simp [Event.isConnectStep]⟩
  · intro hinv _
    rw [hnil hinv]
    exact ⟨h.2, n.2, g.2.1, g.2.2, by simp [h1, h2, h3, h4, h5]⟩
  · simp

theorem ReconnectPhase_spec (env : Env) (s : Server) (tr : Trace) :
    ∃ evs, (ReconnectPhase env s tr).2 = tr ++ evs ∧
      (∀ e ∈ evs, e.isConnectStep = true) ∧
      (ReconnectPhase env s tr).1.m_Connections = s.m_Connections ∧
      (ReconnectPhase env s tr).1.m_ConnectionTimeout = s.m_ConnectionTimeout ∧
      (ReconnectPhase env s tr).1.m_HttpRequest = s.m_HttpRequest ∧
      (ReconnectPhase env s tr).1.m_Userdata = s.m_Userdata ∧
      (ReconnectPhase env s tr).1.m_Reconnect = false := by
  unfold ReconnectPhase
  by_cases h : s.m_Reconnect = true
  · obtain ⟨evs, htr, -, hserv, -, h1, h2, h3, h4, -⟩ :=
      Connect_spec env s s.m_Port (tr ++ [Event.LogWarning])
    refine ⟨Event.LogWarning :: evs, ?_, ?_, ?_⟩
    · simp [h, htr]
    · intro e he
      rcases List.mem_cons.mp he with rfl | he
      · rfl
      · exact hserv e he
    · simp [h, h1, h2, h3, h4]
  · refine ⟨[], ?_, ?_, ?_⟩
    · simp [h]
    · simp
    · simp only [h, if_false]
      simpa using h

theorem AcceptPhase_cases (env : Env) (s : Server) (selector : Selector) (tr : Trace) :
    (SelectorIsSet selector s.m_ServerSocket = false ∧ AcceptPhase env s selector tr = (s, tr)) ∨
    (SelectorIsSet selector s.m_ServerSocket = true ∧
      (env.Accept tr s.m_ServerSocket).1 = dmSocket.Result.RESULT_OK ∧
      s.m_Connections.Full = true ∧
      AcceptPhase env s selector tr = (s, tr ++
        [Event.Accept s.m_ServerSocket dmSocket.Result.RESULT_OK (env.Accept tr s.m_ServerSocket).2,
         Event.LogWarning, Event.Shutdown (env.Accept tr s.m_ServerSocket).2,
         Event.Delete (env.Accept tr s.m_ServerSocket).2])) ∨
    (SelectorIsSet selector s.m_ServerSocket = true ∧
      (env.Accept tr s.m_ServerSocket).1 = dmSocket.Result.RESULT_OK ∧
      s.m_Connections.Full = false ∧
      AcceptPhase env s selector tr =
        ({ s with m_Connections := (s.m_Connections.Push
            (Connection.mk (env.Accept tr s.m_ServerSocket).2 0
              (env.GetTime (tr ++
                [Event.Accept s.m_ServerSocket dmSocket.Result.RESULT_OK
                  (env.Accept tr s.m_ServerSocket).2,
                 Event.SetNoDelay (env.Accept tr s.m_ServerSocket).2]) % 2 ^ 64))) },
         tr ++
          [Event.Accept s.m_ServerSocket dmSocket.Result.RESULT_OK
            (env.Accept tr s.m_ServerSocket).2,
           Event.SetNoDelay (env.Accept tr s.m_ServerSocket).2,
           Event.GetTime (env.GetTime (tr ++
                [Event.Accept s.m_ServerSocket dmSocket.Result.RESULT_OK
                  (env.Accept tr s.m_ServerSocket).2,
                 Event.SetNoDelay (env.Accept tr s.m_ServerSocket).2]) % 2 ^ 64)])) ∨
    (SelectorIsSet selector s.m_ServerSocket = true ∧
      ((env.Accept tr s.m_ServerSocket).1 = dmSocket.Result.RESULT_CONNABORTED ∨
        (env.Accept tr s.m_ServerSocket).1 = dmSocket.Result.RESULT_NOTCONN) ∧
      AcceptPhase env s selector tr = ({ s with m_Reconnect := true }, tr ++
        [Event.Accept s.m_ServerSocket (env.Accept tr s.m_ServerSocket).1
          (env.Accept tr s.m_ServerSocket).2])) ∨
    (SelectorIsSet selector s.m_ServerSocket = true ∧
      (env.Accept tr s.m_ServerSocket).1 ≠ dmSocket.Result.RESULT_OK ∧
      (env.Accept tr s.m_ServerSocket).1 ≠ dmSocket.Result.RESULT_CONNABORTED ∧
      (env.Accept tr s.m_ServerSocket).1 ≠ dmSocket.Result.RESULT_NOTCONN ∧
      AcceptPhase env s selector tr = (s, tr ++
        [Event.Accept s.m_ServerSocket (env.Accept tr s.m_ServerSocket).1
          (env.Accept tr s.m_ServerSocket).2])) := by
  unfold AcceptPhase
  by_cases hready : SelectorIsSet selector s.m_ServerSocket = true
  swap
  · left
    have hready' : SelectorIsSet selector s.m_ServerSocket = false := by simpa using hready
    exact ⟨hready', by simp only [hready', Bool.false_eq_true, if_false]⟩
  right
  generalize env.Accept tr s.m_ServerSocket = a
  by_cases hok : a.1 = dmSocket.Result.RESULT_OK
  · by_cases hfull : s.m_Connections.Full = true
    · left
      refine ⟨hready, hok, hfull, ?_⟩
      simp only [hready, hok, hfull, if_true]
      simp
    · right; left
      have hfull' : s.m_Connections.Full = false := by simpa using hfull
      refine ⟨hready, hok, hfull', ?_⟩
      simp only [hready, hok, hfull', if_true, Bool.false_eq_true, if_false]
      simp
  · right; right
    by_cases hab : a.1 = dmSocket.Result.RESULT_CONNABORTED ∨ a.1 = dmSocket.Result.RESULT_NOTCONN
    · left
      refine ⟨hready, hab, ?_⟩
      simp only [hready, hok, hab, if_true, if_false]
    · right
      refine ⟨hready, hok, fun h => hab (Or.inl h), fun h => hab (Or.inr h), ?_⟩
      simp only [hready, hok, hab, if_true, if_false]

theorem mem_flatMap_closeEvents (e : Event) (l : List Connection) :
    e ∈ l.flatMap closeEvents ↔
      ∃ c ∈ l, e = Event.Shutdown c.m_Socket ∨ e = Event.Delete c.m_Socket := by
  simp [List.mem_flatMap, closeEvents]

theorem mem_flatMap_dispatchEvents (server : HServer) (s : Server) (e : Event)
    (log : List (Connection × Request)) :
    e ∈ log.flatMap (dispatchEvents server s) ↔
      ∃ d ∈ log,
        e = Event.HttpRequest s.m_HttpRequest s.m_Userdata (mkRequest server d.1.m_Socket) d.2 ∨
        (keepResponse d.2 = false ∧
          (e = Event.Shutdown d.1.m_Socket ∨ e = Event.Delete d.1.m_Socket)) := by
  simp only [List.mem_flatMap, dispatchEvents]
  constructor
  · rintro ⟨d, hd, he⟩
    refine ⟨d, hd, ?_⟩
    by_cases hk : keepResponse d.2 = true
    · simp [hk] at he
      exact Or.inl he
    · have hk' : keepResponse d.2 = false := by simpa using hk
      simp [hk', closeEvents] at he
      rcases he with he | he | he
      · exact Or.inl he
      · exact Or.inr ⟨hk', Or.inl he⟩
      · exact Or.inr ⟨hk', Or.inr he⟩
  · rintro ⟨d, hd, he⟩
    refine ⟨d, hd, ?_⟩
    rcases he with he | ⟨hk, he | he⟩
    · simp [he]
    · simp [hk, closeEvents, he]
    · simp [hk, closeEvents, he]

theorem dispatchedRequests_append (a b : Trace) :
    dispatchedRequests (a ++ b) = dispatchedRequests a ++ dispatchedRequests b := by
  simp [dispatchedRequests, List.filterMap_append]

theorem dispatchedRequests_closeEvents (l : List Connection) :
    dispatchedRequests (l.flatMap closeEvents) = [] := by
  induction l with
  | nil => rfl
  | cons c l ih =>
    rw [List.flatMap_cons, dispatchedRequests_append, ih]
    rfl

theorem dispatchedRequests_dispatchEvents (server : HServer) (s : Server)
    (log : List (Connection × Request)) :
    dispatchedRequests (log.flatMap (dispatchEvents server s))
      = log.map (fun d => mkRequest server d.1.m_Socket) := by
  induction log with
  | nil => rfl
  | cons d log ih =>
    rw [List.flatMap_cons, dispatchedRequests_append, ih]
    by_cases hk : keepResponse d.2 = true
    · simp [dispatchEvents, hk, dispatchedRequests]
    · have hk' : keepResponse d.2 = false := by simpa using hk
      simp [dispatchEvents, hk', dispatchedRequests, closeEvents]

theorem perm_sweep_partition (timeout now : Nat) (kept evicted data : List Connection)
    (hk : List.Perm kept (data.filter (fun c => !expired timeout now c)))
    (he : List.Perm evicted (data.filter (expired timeout now))) :
    List.Perm (kept ++ evicted) data := by
  have h1 := (hk.append he).trans List.perm_append_comm
  exact h1.trans (List.filter_append_perm (expired timeout now) data)

theorem perm_dispatch_partition (ready : Selector) (kept kept2 : List Connection)
    (log : List (Connection × Request))
    (hl : List.Perm (log.map Prod.fst)
      (kept.filter (fun c => SelectorIsSet ready c.m_Socket)))
    (hk2 : List.Perm kept2
      (kept.filter (fun c => !SelectorIsSet ready c.m_Socket) ++
        (log.filter (fun d => keepResponse d.2)).map Prod.fst)) :
    List.Perm (kept2 ++ (log.filter (fun d => !keepResponse d.2)).map Prod.fst) kept := by
  have hsplit : List.Perm
      ((log.filter (fun d => keepResponse d.2)).map Prod.fst ++
        (log.filter (fun d => !keepResponse d.2)).map Prod.fst) (log.map Prod.fst) := by
    rw [← List.map_append]
    exact (List.filter_append_perm (fun d => keepResponse d.2) log).map _
  have h1 : List.Perm (kept2 ++ (log.filter (fun d => !keepResponse d.2)).map Prod.fst)
      (kept.filter (fun c => !SelectorIsSet ready c.m_Socket) ++
        ((log.filter (fun d => keepResponse d.2)).map Prod.fst ++
          (log.filter (fun d => !keepResponse d.2)).map Prod.fst)) := by
    rw [← List.append_assoc]
    exact hk2.append_right _
  have h2 := h1.trans (List.Perm.append_left _ (hsplit.trans hl))
  exact (h2.trans List.perm_append_comm).trans
    (List.filter_append_perm (fun c => SelectorIsSet ready c.m_Socket) kept)

theorem shutdown_mem_closeEvents (x : Socket) (l : List Connection) :
    Event.Shutdown x ∈ l.flatMap closeEvents ↔ x ∈ l.map (fun c => c.m_Socket) := by
  simp only [mem_flatMap_closeEvents, List.mem_map]
  constructor
  · rintro ⟨c, hc, h | h⟩
    · cases h; exact ⟨c, hc, rfl⟩
    · cases h
  · rintro ⟨c, hc, rfl⟩
    exact ⟨c, hc, Or.inl rfl⟩

theorem delete_mem_closeEvents (x : Socket) (l : List Connection) :
    Event.Delete x ∈ l.flatMap closeEvents ↔ x ∈ l.map (fun c => c.m_Socket) := by
  simp only [mem_flatMap_closeEvents, List.mem_map]
  constructor
  · rintro ⟨c, hc, h | h⟩
    · cases h
    · cases h; exact ⟨c, hc, rfl⟩
  · rintro ⟨c, hc, rfl⟩
    exact ⟨c, hc, Or.inr rfl⟩

theorem shutdown_mem_dispatchEvents (server : HServer) (s : Server) (x : Socket)
    (log : List (Connection × Request)) :
    Event.Shutdown x ∈ log.flatMap (dispatchEvents server s) ↔
      x ∈ ((log.filter (fun d => !keepResponse d.2)).map Prod.fst).map (fun c => c.m_Socket) := by
  simp only [mem_flatMap_dispatchEvents, List.mem_map, List.mem_filter]
  constructor
  · rintro ⟨d, hd, h | ⟨hkr, h | h⟩⟩
    · cases h
    · cases h; exact ⟨d.1, ⟨d, ⟨hd, by simp [hkr]⟩, rfl⟩, rfl⟩
    · cases h
  · rintro ⟨c, ⟨d, ⟨hd, hkr⟩, rfl⟩, rfl⟩
    exact ⟨d, hd, Or.inr ⟨by simpa using hkr, Or.inl rfl⟩⟩

theorem delete_mem_dispatchEvents (server : HServer) (s : Server) (x : Socket)
    (log : List (Connection × Request)) :
    Event.Delete x ∈ log.flatMap (dispatchEvents server s) ↔
      x ∈ ((log.filter (fun d => !keepResponse d.2)).map Prod.fst).map (fun c => c.m_Socket) := by
  simp only [mem_flatMap_dispatchEvents, List.mem_map, List.mem_filter]
  constructor
  · rintro ⟨d, hd, h | ⟨hkr, h | h⟩⟩
    · cases h
    · cases h
    · cases h; exact ⟨d.1, ⟨d, ⟨hd, by simp [hkr]⟩, rfl⟩, rfl⟩
  · rintro ⟨c, ⟨d, ⟨hd, hkr⟩, rfl⟩, rfl⟩
    exact ⟨d, hd, Or.inr ⟨by simpa using hkr, Or.inr rfl⟩⟩

theorem accept_not_mem_closeEvents (a : Socket) (r : dmSocket.Result) (c : Socket)
    (l : List Connection) : Event.Accept a r c ∉ l.flatMap closeEvents := by
  simp only [mem_flatMap_closeEvents]
  rintro ⟨c, hc, h | h⟩ <;> cases h

theorem accept_not_mem_dispatchEvents (server : HServer) (s : Server) (a : Socket)
    (r : dmSocket.Result) (c : Socket) (log : List (Connection × Request)) :
    Event.Accept a r c ∉ log.flatMap (dispatchEvents server s) := by
  simp only [mem_flatMap_dispatchEvents]
  rintro ⟨d, hd, h | ⟨hkr, h | h⟩⟩ <;> cases h

theorem UpdateTail_detail (env : Env) (server : HServer) (s : Server) (tr : Trace)
    (hlen : s.m_Connections.Size < 2 ^ 32) :
    ∃ kept evicted, ∃ p : dmSocket.Result × (Socket → Bool),
      List.Perm kept (s.m_Connections.data.filter
        (fun c => !expired s.m_ConnectionTimeout (env.GetTime tr % 2 ^ 64) c)) ∧
      List.Perm evicted (s.m_Connections.data.filter
        (expired s.m_ConnectionTimeout (env.GetTime tr % 2 ^ 64))) ∧
      TimeoutLoop s.m_ConnectionTimeout (env.GetTime tr % 2 ^ 64) (s.m_Connections.Size + 1)
          s.m_Connections 0 (tr ++ [Event.GetTime (env.GetTime tr % 2 ^ 64)])
        = some (⟨kept, s.m_Connections.capacity⟩,
            tr ++ [Event.GetTime (env.GetTime tr % 2 ^ 64)] ++ evicted.flatMap closeEvents) ∧
      (p.1 ≠ dmSocket.Result.RESULT_OK →
        UpdateTail env server s tr = some (Result.RESULT_SOCKET_ERROR,
          { s with m_Connections := ⟨kept, s.m_Connections.capacity⟩ },
          tr ++ ([Event.GetTime (env.GetTime tr % 2 ^ 64)] ++ evicted.flatMap closeEvents ++
            [Event.Select (kept.map (fun c => c.m_Socket)) p.1
              (List.filter p.2 (kept.map (fun c => c.m_Socket)))]))) ∧
      (p.1 = dmSocket.Result.RESULT_OK →
        ∃ (log : List (Connection × Request)) (kept2 : List Connection),
          UpdateTail env server s tr = some (Result.RESULT_OK,
            { s with m_Connections := ⟨kept2, s.m_Connections.capacity⟩ },
            tr ++ ([Event.GetTime (env.GetTime tr % 2 ^ 64)] ++ evicted.flatMap closeEvents ++
              [Event.Select (kept.map (fun c => c.m_Socket)) p.1
                (List.filter p.2 (kept.map (fun c => c.m_Socket)))] ++
              log.flatMap (dispatchEvents server s))) ∧
          List.Perm (log.map Prod.fst)
            (kept.filter (fun c => SelectorIsSet
              (List.filter p.2 (kept.map (fun c => c.m_Socket))) c.m_Socket)) ∧
          List.Perm kept2
            (kept.filter (fun c => !SelectorIsSet
              (List.filter p.2 (kept.map (fun c => c.m_Socket))) c.m_Socket) ++
              (log.filter (fun d => keepResponse d.2)).map Prod.fst)) := by
  obtain ⟨kept, evicted, hk, he, hloop, hrest⟩ := UpdateTail_spec env server s tr hlen
  have key := hrest _ _ _ _ _ rfl rfl rfl rfl rfl
  clear hrest
  generalize env.Select (tr ++ [Event.GetTime (env.GetTime tr % 2 ^ 64)] ++
      evicted.flatMap closeEvents) (kept.map (fun c => c.m_Socket)) = p at key
  obtain ⟨hfail, hok⟩ := key
  refine ⟨kept, evicted, p, hk, he, hloop, ?_, ?_⟩
  · intro hp
    rw [hfail hp]; simp only [List.append_assoc]
  · intro hp
    obtain ⟨log, kept2, -, hrun, hl, hk2⟩ := hok hp
    refine ⟨log, kept2, ?_, hl, hk2⟩
    rw [hrun]; simp only [List.append_assoc]

theorem UpdateTail_full (env : Env) (server : HServer) (s : Server) (tr : Trace)
    (hlen : s.m_Connections.Size < 2 ^ 32) :
    ∃ (kept evicted final : List Connection) (log : List (Connection × Request))
      (rsel : dmSocket.Result) (ready : Selector) (res : Result),
      UpdateTail env server s tr = some (res,
        { s with m_Connections := ⟨final, s.m_Connections.capacity⟩ },
        tr ++ ([Event.GetTime (env.GetTime tr % 2 ^ 64)] ++ evicted.flatMap closeEvents ++
          [Event.Select (kept.map (fun c => c.m_Socket)) rsel ready] ++
          log.flatMap (dispatchEvents server s))) ∧
      List.Perm kept (s.m_Connections.data.filter
        (fun c => !expired s.m_ConnectionTimeout (env.GetTime tr % 2 ^ 64) c)) ∧
      List.Perm evicted (s.m_Connections.data.filter
        (expired s.m_ConnectionTimeout (env.GetTime tr % 2 ^ 64))) ∧
      TimeoutLoop s.m_ConnectionTimeout (env.GetTime tr % 2 ^ 64) (s.m_Connections.Size + 1)
          s.m_Connections 0 (tr ++ [Event.GetTime (env.GetTime tr % 2 ^ 64)])
        = some (⟨kept, s.m_Connections.capacity⟩,
            tr ++ [Event.GetTime (env.GetTime tr % 2 ^ 64)] ++ evicted.flatMap closeEvents) ∧
      (∀ x ∈ ready, x ∈ kept.map (fun c => c.m_Socket)) ∧
      (rsel = dmSocket.Result.RESULT_OK → res = Result.RESULT_OK ∧
        List.Perm (log.map Prod.fst)
          (kept.filter (fun c => SelectorIsSet ready c.m_Socket)) ∧
        List.Perm final
          (kept.filter (fun c => !SelectorIsSet ready c.m_Socket) ++
            (log.filter (fun d => keepResponse d.2)).map Prod.fst)) ∧
      (rsel ≠ dmSocket.Result.RESULT_OK →
        res = Result.RESULT_SOCKET_ERROR ∧ log = [] ∧ final = kept) := by
  obtain ⟨kept, evicted, p, hk, he, hloop, hfail, hok⟩ := UpdateTail_detail env server s tr hlen
  have hsub : ∀ x ∈ List.filter p.2 (kept.map (fun c => c.m_Socket)),
      x ∈ kept.map (fun c => c.m_Socket) := fun x hx => (List.mem_filter.mp hx).1
  by_cases hp : p.1 = dmSocket.Result.RESULT_OK
  · obtain ⟨log, kept2, hrun, hl, hk2⟩ := hok hp
    exact ⟨kept, evicted, kept2, log, p.1, _, Result.RESULT_OK, hrun, hk, he, hloop, hsub,
      fun _ => ⟨rfl, hl, hk2⟩, fun h => absurd hp h⟩
  · refine ⟨kept, evicted, kept, [], p.1, _, Result.RESULT_SOCKET_ERROR, ?_, hk, he, hloop, hsub,
      fun h => absurd h hp, fun _ => ⟨rfl, rfl, rfl⟩⟩
    rw [hfail hp]; simp

theorem UpdateTail_summary (env : Env) (server : HServer) (s : Server) (tr : Trace)
    (hlen : s.m_Connections.Size < 2 ^ 32) :
    ∃ res final closed evs,
      UpdateTail env server s tr = some (res,
        { s with m_Connections := ⟨final, s.m_Connections.capacity⟩ }, tr ++ evs) ∧
      List.Perm (final ++ closed) s.m_Connections.data ∧
      (∀ x, Event.Shutdown x ∈ evs ↔ x ∈ closed.map (fun c => c.m_Socket)) ∧
      (∀ x, Event.Delete x ∈ evs ↔ x ∈ closed.map (fun c => c.m_Socket)) ∧
      (res = Result.RESULT_OK ∨ res = Result.RESULT_SOCKET_ERROR) ∧
      (∀ a r c, Event.Accept a r c ∉ evs) := by
  obtain ⟨kept, evicted, hk, he, -, hrest⟩ := UpdateTail_spec env server s tr hlen
  have key := hrest _ _ _ _ _ rfl rfl rfl rfl rfl
  clear hrest
  generalize env.Select (tr ++ [Event.GetTime (env.GetTime tr % 2 ^ 64)] ++
      evicted.flatMap closeEvents) (kept.map (fun c => c.m_Socket)) = p at key
  obtain ⟨hfail, hok⟩ := key
  have hpart := perm_sweep_partition _ _ _ _ _ hk he
  by_cases hp : p.1 = dmSocket.Result.RESULT_OK
  · obtain ⟨log, kept2, -, hrun, hl, hk2⟩ := hok hp
    clear hfail hok
    have hd := perm_dispatch_partition _ _ _ _ hl hk2
    refine ⟨Result.RESULT_OK, kept2,
      evicted ++ (log.filter (fun d => !keepResponse d.2)).map Prod.fst,
      [Event.GetTime (env.GetTime tr % 2 ^ 64)] ++ evicted.flatMap closeEvents ++
        [Event.Select (kept.map (fun c => c.m_Socket)) p.1
          (List.filter p.2 (kept.map (fun c => c.m_Socket)))] ++
        log.flatMap (dispatchEvents server s), ?_, ?_, ?_, ?_,
      Or.inl rfl, ?_⟩
    · rw [hrun]; simp only [List.append_assoc]
    · have h1 : List.Perm
          (kept2 ++ (evicted ++ (log.filter (fun d => !keepResponse d.2)).map Prod.fst))
          (kept2 ++ ((log.filter (fun d => !keepResponse d.2)).map Prod.fst ++ evicted)) :=
        List.Perm.append_left kept2 List.perm_append_comm
      have h2 : List.Perm
          (kept2 ++ ((log.filter (fun d => !keepResponse d.2)).map Prod.fst ++ evicted))
          (kept ++ evicted) := by
        rw [← List.append_assoc]; exact hd.append_right _
      exact (h1.trans h2).trans hpart
    · intro x
      simp [List.mem_append, shutdown_mem_closeEvents, shutdown_mem_dispatchEvents,
        -List.mem_flatMap, -List.mem_map, -List.map_map]
    · intro x
      simp [List.mem_append, delete_mem_closeEvents, delete_mem_dispatchEvents,
        -List.mem_flatMap, -List.mem_map, -List.map_map]
    · intro a r c
      simp [List.mem_append, accept_not_mem_closeEvents, accept_not_mem_dispatchEvents,
        -List.mem_flatMap]
  · clear hok
    refine ⟨Result.RESULT_SOCKET_ERROR, kept, evicted,
      [Event.GetTime (env.GetTime tr % 2 ^ 64)] ++ evicted.flatMap closeEvents ++
        [Event.Select (kept.map (fun c => c.m_Socket)) p.1
          (List.filter p.2 (kept.map (fun c => c.m_Socket)))],
      ?_, hpart, ?_, ?_, Or.inr rfl, ?_⟩
    · rw [hfail hp]; simp only [List.append_assoc]
    · intro x
      simp [List.mem_append, shutdown_mem_closeEvents, -List.mem_flatMap, -List.mem_map]
    · intro x
      simp [List.mem_append, delete_mem_closeEvents, -List.mem_flatMap, -List.mem_map]
    · intro a r c
      simp [List.mem_append, accept_not_mem_closeEvents, -List.mem_flatMap]

theorem Update_eq_tail (env : Env) (server : HServer) (s : Server) (tr : Trace)
    (h : (PollPhase env s tr).result = dmSocket.Result.RESULT_OK) :
    Update env server s tr =
      UpdateTail env server
        (AcceptPhase env (PollPhase env s tr).server (PollPhase env s tr).selector
          (PollPhase env s tr).trace).1
        (AcceptPhase env (PollPhase env s tr).server (PollPhase env s tr).selector
          (PollPhase env s tr).trace).2 := by
  unfold Update
  simp only [ne_eq, h, not_true_eq_false, if_false]

theorem Update_eq_error (env : Env) (server : HServer) (s : Server) (tr : Trace)
    (h : (PollPhase env s tr).result ≠ dmSocket.Result.RESULT_OK) :
    Update env server s tr =
      some (Result.RESULT_SOCKET_ERROR, (PollPhase env s tr).server,
        (PollPhase env s tr).trace) := by
  unfold Update
  simp only [ne_eq, h, not_false_eq_true, if_true]

theorem Update_eq (env : Env) (server : HServer) (s : Server) (tr : Trace) :
    Update env server s tr =
      if (env.Select (ReconnectPhase env s tr).2
            [(ReconnectPhase env s tr).1.m_ServerSocket]).1 ≠ dmSocket.Result.RESULT_OK then
        some (Result.RESULT_SOCKET_ERROR, (ReconnectPhase env s tr).1,
          (ReconnectPhase env s tr).2 ++
            [Event.Select [(ReconnectPhase env s tr).1.m_ServerSocket]
              (env.Select (ReconnectPhase env s tr).2
                [(ReconnectPhase env s tr).1.m_ServerSocket]).1
              (List.filter (env.Select (ReconnectPhase env s tr).2
                [(ReconnectPhase env s tr).1.m_ServerSocket]).2
                [(ReconnectPhase env s tr).1.m_ServerSocket])])
      else
        UpdateTail env server
          (AcceptPhase env (ReconnectPhase env s tr).1
            (List.filter (env.Select (ReconnectPhase env s tr).2
                [(ReconnectPhase env s tr).1.m_ServerSocket]).2
                [(ReconnectPhase env s tr).1.m_ServerSocket])
            ((ReconnectPhase env s tr).2 ++
              [Event.Select [(ReconnectPhase env s tr).1.m_ServerSocket]
                (env.Select (ReconnectPhase env s tr).2
                  [(ReconnectPhase env s tr).1.m_ServerSocket]).1
                (List.filter (env.Select (ReconnectPhase env s tr).2
                  [(ReconnectPhase env s tr).1.m_ServerSocket]).2
                  [(ReconnectPhase env s tr).1.m_ServerSocket])])).1
          (AcceptPhase env (ReconnectPhase env s tr).1
            (List.filter (env.Select (ReconnectPhase env s tr).2
                [(ReconnectPhase env s tr).1.m_ServerSocket]).2
                [(ReconnectPhase env s tr).1.m_ServerSocket])
            ((ReconnectPhase env s tr).2 ++
              [Event.Select [(ReconnectPhase env s tr).1.m_ServerSocket]
                (env.Select (ReconnectPhase env s tr).2
                  [(ReconnectPhase env s tr).1.m_ServerSocket]).1
                (List.filter (env.Select (ReconnectPhase env s tr).2
                  [(ReconnectPhase env s tr).1.m_ServerSocket]).2
                  [(ReconnectPhase env s tr).1.m_ServerSocket])])).2 := rfl

theorem AcceptPhase_summary (env : Env) (s : Server) (selector : Selector) (tr : Trace) :
    ∃ evs added refused,
      (AcceptPhase env s selector tr).2 = tr ++ evs ∧
      (AcceptPhase env s selector tr).1 =
        { s with
          m_Connections := ⟨s.m_Connections.data ++ added, s.m_Connections.capacity⟩
          m_Reconnect := (AcceptPhase env s selector tr).1.m_Reconnect } ∧
      (∀ x, Event.Shutdown x ∈ evs ↔ x ∈ refused) ∧
      (∀ e ∈ evs, ∀ cb ud req resp, e ≠ Event.HttpRequest cb ud req resp) ∧
      (added = [] ∨ ∃ c, added = [c] ∧ s.m_Connections.Full = false ∧ refused = [] ∧
        c.m_RequestCount = 0 ∧
        (env.Accept tr s.m_ServerSocket).1 = dmSocket.Result.RESULT_OK ∧
        c.m_Socket = (env.Accept tr s.m_ServerSocket).2 ∧
        Event.Accept s.m_ServerSocket dmSocket.Result.RESULT_OK c.m_Socket ∈ evs) ∧
      (refused = [] ∨ (refused = [(env.Accept tr s.m_ServerSocket).2] ∧ added = [] ∧
        (env.Accept tr s.m_ServerSocket).1 = dmSocket.Result.RESULT_OK ∧
        s.m_Connections.Full = true)) := by
  rcases AcceptPhase_cases env s selector tr with
    ⟨-, h⟩ | ⟨-, hok, hfull, h⟩ | ⟨-, hok, hfull, h⟩ | ⟨-, -, h⟩ | ⟨-, -, -, -, h⟩
  · refine ⟨[], [], [], ?_, ?_, ?_, ?_, Or.inl rfl, Or.inl rfl⟩
    · simp [h]
    · rw [h]; simp
    · simp
    · simp
  · refine ⟨[Event.Accept s.m_ServerSocket dmSocket.Result.RESULT_OK
          (env.Accept tr s.m_ServerSocket).2,
        Event.LogWarning, Event.Shutdown (env.Accept tr s.m_ServerSocket).2,
        Event.Delete (env.Accept tr s.m_ServerSocket).2],
      [], [(env.Accept tr s.m_ServerSocket).2], ?_, ?_, ?_, ?_, Or.inl rfl,
      Or.inr ⟨rfl, rfl, hok, hfull⟩⟩
    · rw [h]
    · rw [h]; simp
    · intro x; simp
    · simp
  · refine ⟨[Event.Accept s.m_ServerSocket dmSocket.Result.RESULT_OK
          (env.Accept tr s.m_ServerSocket).2,
        Event.SetNoDelay (env.Accept tr s.m_ServerSocket).2,
        Event.GetTime (env.GetTime (tr ++
          [Event.Accept s.m_ServerSocket dmSocket.Result.RESULT_OK
            (env.Accept tr s.m_ServerSocket).2,
           Event.SetNoDelay (env.Accept tr s.m_ServerSocket).2]) % 2 ^ 64)],
      [Connection.mk (env.Accept tr s.m_ServerSocket).2 0
        (env.GetTime (tr ++
          [Event.Accept s.m_ServerSocket dmSocket.Result.RESULT_OK
            (env.Accept tr s.m_ServerSocket).2,
           Event.SetNoDelay (env.Accept tr s.m_ServerSocket).2]) % 2 ^ 64)],
      [], ?_, ?_, ?_, ?_, Or.inr ⟨_, rfl, hfull, rfl, rfl, hok, rfl, by simp⟩, Or.inl rfl⟩
    · rw [h]
    · rw [h]; simp [dmArray.Push]
    · intro x; simp
    · simp
  · refine ⟨[Event.Accept s.m_ServerSocket (env.Accept tr s.m_ServerSocket).1
          (env.Accept tr s.m_ServerSocket).2], [], [], ?_, ?_, ?_, ?_, Or.inl rfl, Or.inl rfl⟩
    · rw [h]
    · rw [h]; simp
    · intro x; simp
    · simp
  · refine ⟨[Event.Accept s.m_ServerSocket (env.Accept tr s.m_ServerSocket).1
          (env.Accept tr s.m_ServerSocket).2], [], [], ?_, ?_, ?_, ?_, Or.inl rfl, Or.inl rfl⟩
    · rw [h]
    · rw [h]; simp
    · intro x; simp
    · simp

theorem Update_summary (env : Env) (server : HServer) (s : Server) (tr : Trace)
    (hv : s.m_Connections.Valid) :
    ∃ res s' evs final closed added refused,
      Update env server s tr = some (res, s', tr ++ evs) ∧
      s'.m_Connections = ⟨final, s.m_Connections.capacity⟩ ∧
      List.Perm (final ++ closed) (s.m_Connections.data ++ added) ∧
      (∀ x, Event.Shutdown x ∈ evs ↔ x ∈ closed.map (fun c => c.m_Socket) ∨ x ∈ refused) ∧
      (res = Result.RESULT_OK ∨ res = Result.RESULT_SOCKET_ERROR) ∧
      (added = [] ∨ ∃ c, added = [c] ∧ s.m_Connections.Size < s.m_Connections.capacity ∧
        refused = [] ∧ c.m_RequestCount = 0 ∧
        ∃ t srv, (env.Accept t srv).1 = dmSocket.Result.RESULT_OK ∧
          c.m_Socket = (env.Accept t srv).2 ∧
          Event.Accept srv dmSocket.Result.RESULT_OK c.m_Socket ∈ evs) ∧
      (refused = [] ∨ ∃ t srv, refused = [(env.Accept t srv).2] ∧ added = [] ∧
        (env.Accept t srv).1 = dmSocket.Result.RESULT_OK) ∧
      s'.m_ConnectionTimeout = s.m_ConnectionTimeout ∧
      s'.m_HttpRequest = s.m_HttpRequest ∧
      s'.m_Userdata = s.m_Userdata := by
  obtain ⟨hsz, hcap⟩ := hv
  simp only [dmArray.Size, dmArray.Capacity] at hsz hcap
  rw [Update_eq]
  obtain ⟨revs, hrtr, hrstep, hrc, hrt, hrh, hru, -⟩ := ReconnectPhase_spec env s tr
  have hrsh : ∀ x, Event.Shutdown x ∉ revs := by
    intro x hx
    have := hrstep _ hx
    simp [Event.isConnectStep] at this
  generalize ReconnectPhase env s tr = R at *
  generalize env.Select R.2 [R.1.m_ServerSocket] = p
  by_cases hp : p.1 = dmSocket.Result.RESULT_OK
  · rw [if_neg (not_not.mpr hp)]
    obtain ⟨aevs, added, refused, hatr, has, hash, -, hadd, href⟩ :=
      AcceptPhase_summary env R.1 (List.filter p.2 [R.1.m_ServerSocket])
        (R.2 ++ [Event.Select [R.1.m_ServerSocket] p.1 (List.filter p.2 [R.1.m_ServerSocket])])
    generalize AcceptPhase env R.1 (List.filter p.2 [R.1.m_ServerSocket])
        (R.2 ++ [Event.Select [R.1.m_ServerSocket] p.1 (List.filter p.2 [R.1.m_ServerSocket])])
      = A at *
    have hAc : A.1.m_Connections = ⟨s.m_Connections.data ++ added, s.m_Connections.capacity⟩ := by
      have := congrArg Server.m_Connections has
      simpa [hrc] using this
    have hAt : A.1.m_ConnectionTimeout = s.m_ConnectionTimeout := by
      have := congrArg Server.m_ConnectionTimeout has
      simpa [hrt] using this
    have hAh : A.1.m_HttpRequest = s.m_HttpRequest := by
      have := congrArg Server.m_HttpRequest has
      simpa [hrh] using this
    have hAu : A.1.m_Userdata = s.m_Userdata := by
      have := congrArg Server.m_Userdata has
      simpa [hru] using this
    have hfull : ∀ c, added = [c] → R.1.m_Connections.Full = false →
        s.m_Connections.data.length < s.m_Connections.capacity := by
      intro c _ hf
      rw [hrc] at hf
      simp only [dmArray.Full, dmArray.Size, dmArray.Capacity, beq_eq_false_iff_ne, ne_eq] at hf
      omega
    have hlen : A.1.m_Connections.Size < 2 ^ 32 := by
      rw [hAc]
      simp only [dmArray.Size, List.length_append]
      rcases hadd with h | ⟨c, h, hf, -⟩
      · simp [h]; omega
      · have := hfull c h hf
        simp [h]; omega
    obtain ⟨res, final, closed, tevs, hrun, hperm, hsh, -, hres, -⟩ :=
      UpdateTail_summary env server A.1 A.2 hlen
    refine ⟨res, { A.1 with m_Connections := ⟨final, A.1.m_Connections.capacity⟩ },
      revs ++ [Event.Select [R.1.m_ServerSocket] p.1
        (List.filter p.2 [R.1.m_ServerSocket])] ++ aevs ++ tevs, final, closed, added, refused,
      ?_, ?_, ?_, ?_, hres, ?_, ?_, hAt, hAh, hAu⟩
    · rw [hrun, hatr, hrtr]; simp only [List.append_assoc]
    · simp only [hAc]
    · rw [hAc] at hperm; exact hperm
    · intro x
      simp only [List.mem_append, List.mem_singleton, hsh, hash, hrsh, false_or, reduceCtorEq,
         or_false]
      exact or_comm
    · rcases hadd with h | ⟨c, h, hf, hr, hc0, hok, hsock, hev⟩
      · exact Or.inl h
      · refine Or.inr ⟨c, h, hfull c h hf, hr, hc0, _, _, hok, hsock, ?_⟩
        simp only [List.mem_append]
        exact Or.inl (Or.inr hev)
    · rcases href with h | ⟨h, ha, hok, -⟩
      · exact Or.inl h
      · exact Or.inr ⟨_, _, h, ha, hok⟩
  · rw [if_pos hp]
    refine ⟨Result.RESULT_SOCKET_ERROR, R.1, revs ++ [Event.Select [R.1.m_ServerSocket] p.1
        (List.filter p.2 [R.1.m_ServerSocket])], s.m_Connections.data, [], [], [],
      ?_, ?_, ?_, ?_, Or.inr rfl, Or.inl rfl, Or.inl rfl, hrt, hrh, hru⟩
    · rw [hrtr]; simp only [List.append_assoc]
    · rw [hrc]
    · simp
    · intro x
      simp [hrsh]

theorem Update_valid (env : Env) (server : HServer) (s : Server) (tr : Trace)
    (hv : s.m_Connections.Valid) :
    ∃ res s' tr', Update env server s tr = some (res, s', tr') ∧
      s'.m_Connections.Valid ∧ s'.m_Connections.Capacity = s.m_Connections.Capacity := by
  obtain ⟨res, s', evs, final, closed, added, refused, hrun, hconn, hperm, -, -, hadd, -⟩ :=
    Update_summary env server s tr hv
  refine ⟨res, s', tr ++ evs, hrun, ?_, ?_⟩
  · obtain ⟨hsz, hcap⟩ := hv
    have hl := hperm.length_eq
    simp only [dmArray.Size, dmArray.Capacity, List.length_append] at hsz hcap hl
    rw [hconn]
    refine ⟨?_, hcap⟩
    simp only [dmArray.Size, dmArray.Capacity]
    rcases hadd with h | ⟨c, h, hlt, -⟩
    · simp [h] at hl; omega
    · simp only [dmArray.Size] at hlt
      simp [h] at hl; omega
  · rw [hconn]; rfl

theorem UpdateSeq_valid (server : HServer) (envs : List Env) :
    ∀ (s : Server) (tr : Trace), s.m_Connections.Valid →
      ∃ s' tr', UpdateSeq server envs s tr = some (s', tr') ∧
        s'.m_Connections.Valid ∧ s'.m_Connections.Capacity = s.m_Connections.Capacity := by
  induction envs with
  | nil => intro s tr hv; exact ⟨s, tr, rfl, hv, rfl⟩
  | cons env envs ih =>
    intro s tr hv
    obtain ⟨res, s1, tr1, hrun, hv1, hc1⟩ := Update_valid env server s tr hv
    obtain ⟨s2, tr2, hrun2, hv2, hc2⟩ := ih s1 tr1 hv1
    refine ⟨s2, tr2, ?_, hv2, hc2.trans hc1⟩
    simp only [UpdateSeq, hrun, hrun2]

theorem New_ok_pool (env : Env) (params : NewParams) (port : Nat) (tr : Trace)
    (server : HServer) (s0 : Server) (tr0 : Trace)
    (hnew : New env params port tr = (Result.RESULT_OK, server, some s0, tr0)) :
    s0.m_Connections = ⟨[], params.m_MaxConnections⟩ ∧
    s0.m_ConnectionTimeout = (params.m_ConnectionTimeout * 1000000) % 2 ^ 32 ∧
    s0.m_HttpRequest = params.m_HttpRequest ∧
    s0.m_Userdata = params.m_Userdata ∧
    s0.m_Reconnect = false ∧
    server ≠ HServer.null := by
  obtain ⟨-, -, -, -, -, hc, -, -, -, hr⟩ := Connect_spec env Server.init port tr
  unfold New at hnew
  by_cases hcb : params.m_HttpRequest = 0
  · simp [hcb] at hnew
  · by_cases hok : (Connect env Server.init port tr).1 = Result.RESULT_OK
    · simp only [hcb, if_false, ne_eq, hok, not_true_eq_false, Prod.mk.injEq, true_and,
        Option.some.injEq] at hnew
      obtain ⟨hserver, hs0, -⟩ := hnew
      subst hs0 hserver
      have hc' : (Connect env Server.init port tr).2.1.m_Connections = ⟨[], 0⟩ := hc
      have hr' : (Connect env Server.init port tr).2.1.m_Reconnect = false := hr
      simp [hc', hr', dmArray.SetCapacity]
    · simp [hcb, hok] at hnew

theorem PollPhase_spec (env : Env) (s : Server) (tr : Trace) :
    ∃ revs, (PollPhase env s tr).trace = tr ++ revs ++
        [Event.Select [(PollPhase env s tr).server.m_ServerSocket] (PollPhase env s tr).result
          (PollPhase env s tr).selector] ∧
      (∀ e ∈ revs, e.isConnectStep = true) ∧
      (PollPhase env s tr).server = (ReconnectPhase env s tr).1 ∧
      tr ++ revs = (ReconnectPhase env s tr).2 ∧
      (PollPhase env s tr).result = (env.Select (tr ++ revs)
        [(PollPhase env s tr).server.m_ServerSocket]).1 ∧
      (PollPhase env s tr).selector = List.filter (env.Select (tr ++ revs)
        [(PollPhase env s tr).server.m_ServerSocket]).2
        [(PollPhase env s tr).server.m_ServerSocket] ∧
      (PollPhase env s tr).server.m_Connections = s.m_Connections ∧
      (PollPhase env s tr).server.m_ConnectionTimeout = s.m_ConnectionTimeout ∧
      (PollPhase env s tr).server.m_HttpRequest = s.m_HttpRequest ∧
      (PollPhase env s tr).server.m_Userdata = s.m_Userdata ∧
      (PollPhase env s tr).server.m_Reconnect = false := by
  obtain ⟨revs, hrtr, hrstep, hrc, hrt, hrh, hru, hrr⟩ := ReconnectPhase_spec env s tr
  refine ⟨revs, ?_, hrstep, rfl, hrtr.symm, ?_, ?_, hrc, hrt, hrh, hru, hrr⟩
  · simp only [PollPhase, SelectorSet, List.nil_append, hrtr]
  · simp only [PollPhase, SelectorSet, List.nil_append, hrtr]
  · simp only [PollPhase, SelectorSet, List.nil_append, hrtr]

theorem Update_eq_afterAccept (env : Env) (server : HServer) (s : Server) (tr : Trace)
    (h : (PollPhase env s tr).result = dmSocket.Result.RESULT_OK) :
    Update env server s tr =
      UpdateTail env server (AfterAccept env s tr).1 (AfterAccept env s tr).2 :=
  Update_eq_tail env server s tr h

theorem AfterAccept_spec (env : Env) (s : Server) (tr : Trace) (hv : s.m_Connections.Valid) :
    ∃ aevs added,
      (AfterAccept env s tr).2 = tr ++ aevs ∧
      (AfterAccept env s tr).1.m_Connections
        = ⟨s.m_Connections.data ++ added, s.m_Connections.capacity⟩ ∧
      (AfterAccept env s tr).1.m_Connections.Valid ∧
      (AfterAccept env s tr).1.m_ConnectionTimeout = s.m_ConnectionTimeout ∧
      (AfterAccept env s tr).1.m_HttpRequest = s.m_HttpRequest ∧
      (AfterAccept env s tr).1.m_Userdata = s.m_Userdata ∧
      (∀ e ∈ aevs, ∀ cb ud req resp, e ≠ Event.HttpRequest cb ud req resp) := by
  obtain ⟨hsz, hcap⟩ := hv
  simp only [dmArray.Size, dmArray.Capacity] at hsz hcap
  obtain ⟨revs, hptr, hrstep, -, -, -, -, hpc, hpt, hph, hpu, -⟩ := PollPhase_spec env s tr
  unfold AfterAccept
  generalize PollPhase env s tr = P at *
  obtain ⟨aevs, added, refused, hatr, has, -, hnoreq, hadd, -⟩ :=
    AcceptPhase_summary env P.server P.selector P.trace
  generalize AcceptPhase env P.server P.selector P.trace = A at *
  have hAc : A.1.m_Connections = ⟨s.m_Connections.data ++ added, s.m_Connections.capacity⟩ := by
    have := congrArg Server.m_Connections has
    simpa [hpc] using this
  refine ⟨revs ++ [Event.Select [P.server.m_ServerSocket] P.result P.selector] ++ aevs, added,
    ?_, hAc, ?_, ?_, ?_, ?_, ?_⟩
  · rw [hatr, hptr]; simp only [List.append_assoc]
  · rw [hAc]
    refine ⟨?_, hcap⟩
    simp only [dmArray.Size, dmArray.Capacity, List.length_append]
    rcases hadd with h | ⟨c, h, hf, -⟩
    · simp [h]; omega
    · rw [hpc] at hf
      simp only [dmArray.Full, dmArray.Size, dmArray.Capacity, beq_eq_false_iff_ne, ne_eq] at hf
      simp [h]; omega
  · have := congrArg Server.m_ConnectionTimeout has
    simpa [hpt] using this
  · have := congrArg Server.m_HttpRequest has
    simpa [hph] using this
  · have := congrArg Server.m_Userdata has
    simpa [hpu] using this
  · intro e he cb ud req resp heq
    simp only [List.mem_append, List.mem_singleton] at he
    rcases he with (he | he) | he
    · have := hrstep e he
      rw [heq] at this
      simp [Event.isConnectStep] at this
    · rw [heq] at he; cases he
    · exact hnoreq e he cb ud req resp heq

theorem filter_not_expired_eq (timeout now : Nat) (l : List Connection) :
    l.filter (fun c => !expired timeout now c)
      = l.filter (fun c => decide (sub64 now c.m_ConnectionTimeStart ≤ timeout)) := by
  apply List.filter_congr
  intro c _
  unfold expired
  by_cases h : sub64 now c.m_ConnectionTimeStart ≤ timeout
  · have h' : ¬ sub64 now c.m_ConnectionTimeStart > timeout := by omega
    simp [h, h']
  · have h' : sub64 now c.m_ConnectionTimeStart > timeout := by omega
    simp [h, h']

theorem filter_expired_eq (timeout now : Nat) (l : List Connection) :
    l.filter (expired timeout now)
      = l.filter (fun c => decide (sub64 now c.m_ConnectionTimeStart > timeout)) := rfl

theorem mem_tail_events (server : HServer) (s : Server) (e : Event) (t : Nat)
    (evicted kept : List Connection) (rsel : dmSocket.Result) (ready : Selector)
    (log : List (Connection × Request)) :
    e ∈ [Event.GetTime t] ++ evicted.flatMap closeEvents ++
        [Event.Select (kept.map (fun c => c.m_Socket)) rsel ready] ++
        log.flatMap (dispatchEvents server s) ↔
      e = Event.GetTime t ∨
      (∃ c ∈ evicted, e = Event.Shutdown c.m_Socket ∨ e = Event.Delete c.m_Socket) ∨
      e = Event.Select (kept.map (fun c => c.m_Socket)) rsel ready ∨
      (∃ d ∈ log,
        e = Event.HttpRequest s.m_HttpRequest s.m_Userdata (mkRequest server d.1.m_Socket) d.2 ∨
        (keepResponse d.2 = false ∧
          (e = Event.Shutdown d.1.m_Socket ∨ e = Event.Delete d.1.m_Socket))) := by
  simp only [List.mem_append, List.mem_singleton, mem_flatMap_closeEvents,
    mem_flatMap_dispatchEvents, or_assoc]

theorem log_fst_mem_kept (ready : Selector) (kept : List Connection)
    (log : List (Connection × Request))
    (hl : List.Perm (log.map Prod.fst) (kept.filter (fun c => SelectorIsSet ready c.m_Socket)))
    (d : Connection × Request) (hd : d ∈ log) :
    d.1 ∈ kept ∧ SelectorIsSet ready d.1.m_Socket = true := by
  have : d.1 ∈ log.map Prod.fst := List.mem_map_of_mem _ hd
  have := hl.subset this
  exact List.mem_filter.mp this

theorem final_mem_kept (ready : Selector) (kept final : List Connection)
    (log : List (Connection × Request))
    (hl : List.Perm (log.map Prod.fst) (kept.filter (fun c => SelectorIsSet ready c.m_Socket)))
    (hf : List.Perm final
      (kept.filter (fun c => !SelectorIsSet ready c.m_Socket) ++
        (log.filter (fun d => keepResponse d.2)).map Prod.fst))
    (c : Connection) (hc : c ∈ final) : c ∈ kept := by
  have := hf.subset hc
  rcases List.mem_append.mp this with h | h
  · exact (List.mem_filter.mp h).1
  · obtain ⟨d, hd, rfl⟩ := List.mem_map.mp h
    exact (log_fst_mem_kept ready kept log hl d (List.mem_filter.mp hd).1).1

theorem dispatchedRequests_tail (server : HServer) (s : Server) (t : Nat)
    (evicted kept : List Connection) (rsel : dmSocket.Result) (ready : Selector)
    (log : List (Connection × Request)) :
    dispatchedRequests ([Event.GetTime t] ++ evicted.flatMap closeEvents ++
        [Event.Select (kept.map (fun c => c.m_Socket)) rsel ready] ++
        log.flatMap (dispatchEvents server s))
      = log.map (fun d => mkRequest server d.1.m_Socket) := by
  rw [dispatchedRequests_append, dispatchedRequests_append, dispatchedRequests_append,
    dispatchedRequests_closeEvents, dispatchedRequests_dispatchEvents]
  rfl

theorem kept_sockets_nodup (timeout now : Nat) (kept data : List Connection)
    (hk : List.Perm kept (data.filter (fun c => !expired timeout now c)))
    (hnd : (data.map (fun c => c.m_Socket)).Nodup) :
    (kept.map (fun c => c.m_Socket)).Nodup := by
  have h1 : ((data.filter (fun c => !expired timeout now c)).map (fun c => c.m_Socket)).Nodup :=
    List.Nodup.sublist ((List.filter_sublist data).map _) hnd
  exact ((hk.map _).nodup_iff).mpr h1

theorem dispatch_count (ready : Selector) (kept : List Connection)
    (log : List (Connection × Request)) (server : HServer)
    (hl : List.Perm (log.map Prod.fst) (kept.filter (fun c => SelectorIsSet ready c.m_Socket)))
    (hnd : (kept.map (fun c => c.m_Socket)).Nodup)
    (c : Connection) (hc : c ∈ kept) :
    ((log.map (fun d => mkRequest server d.1.m_Socket)).map (fun r => r.m_Socket)).count
        c.m_Socket
      = if SelectorIsSet ready c.m_Socket = true then 1 else 0 := by
  have hmap : (log.map (fun d => mkRequest server d.1.m_Socket)).map (fun r => r.m_Socket)
      = (log.map Prod.fst).map (fun c => c.m_Socket) := by
    simp [List.map_map, mkRequest, Function.comp_def]
  rw [hmap, (hl.map _).count_eq]
  have hnd2 : ((kept.filter (fun c => SelectorIsSet ready c.m_Socket)).map
      (fun c => c.m_Socket)).Nodup :=
    List.Nodup.sublist ((List.filter_sublist kept).map _) hnd
  by_cases hr : SelectorIsSet ready c.m_Socket = true
  · rw [if_pos hr]
    apply List.count_eq_one_of_mem hnd2
    exact List.mem_map_of_mem _ (List.mem_filter.mpr ⟨hc, hr⟩)
  · rw [if_neg hr]
    apply List.count_eq_zero_of_not_mem
    intro hmem
    obtain ⟨c', hc', heq⟩ := List.mem_map.mp hmem
    have := (List.mem_filter.mp hc').2
    rw [heq] at this
    exact hr this

theorem keepResponse_eq_false_iff (r : Request) :
    keepResponse r = false ↔ (r.m_Result ≠ Result.RESULT_OK ∨ r.m_CloseConnection = true) := by
  unfold keepResponse
  by_cases h : r.m_Result = Result.RESULT_OK <;> cases hc : r.m_CloseConnection <;> simp [h]

theorem dispatchedRequests_eq_nil (l : Trace)
    (h : ∀ e ∈ l, ∀ cb ud req resp, e ≠ Event.HttpRequest cb ud req resp) :
    dispatchedRequests l = [] := by
  induction l with
  | nil => rfl
  | cons e l ih =>
    have hl := ih (fun e he => h e (List.mem_cons_of_mem _ he))
    have he := h e (List.mem_cons_self _ _)
    unfold dispatchedRequests at hl ⊢
    cases e <;> first
      | (exfalso; exact he _ _ _ _ rfl)
      | (simp only [List.filterMap_cons]; exact hl)

theorem dispatchLog_append (a b : Trace) :
    dispatchLog (a ++ b) = dispatchLog a ++ dispatchLog b := by
  simp [dispatchLog, List.filterMap_append]

theorem dispatchLog_closeEvents (l : List Connection) :
    dispatchLog (l.flatMap closeEvents) = [] := by
  induction l with
  | nil => rfl
  | cons c l ih =>
    rw [List.flatMap_cons, dispatchLog_append, ih]
    rfl

theorem dispatchLog_dispatchEvents (server : HServer) (s : Server)
    (log : List (Connection × Request)) :
    dispatchLog (log.flatMap (dispatchEvents server s))
      = log.map (fun d => (d.1.m_Socket, d.2)) := by
  induction log with
  | nil => rfl
  | cons d log ih =>
    rw [List.flatMap_cons, dispatchLog_append, ih]
    by_cases hk : keepResponse d.2 = true
    · simp [dispatchEvents, hk, dispatchLog, mkRequest]
    · have hk' : keepResponse d.2 = false := by simpa using hk
      simp [dispatchEvents, hk', dispatchLog, closeEvents, mkRequest]

theorem dispatchLog_tail (server : HServer) (s : Server) (t : Nat)
    (evicted kept : List Connection) (rsel : dmSocket.Result) (ready : Selector)
    (log : List (Connection × Request)) :
    dispatchLog ([Event.GetTime t] ++ evicted.flatMap closeEvents ++
        [Event.Select (kept.map (fun c => c.m_Socket)) rsel ready] ++
        log.flatMap (dispatchEvents server s))
      = log.map (fun d => (d.1.m_Socket, d.2)) := by
  rw [dispatchLog_append, dispatchLog_append, dispatchLog_append,
    dispatchLog_closeEvents, dispatchLog_dispatchEvents]
  rfl

theorem filter_not_keep_eq (log : List (Connection × Request)) :
    log.filter (fun d => !keepResponse d.2)
      = log.filter (fun d => decide (d.2.m_Result ≠ Result.RESULT_OK ∨
          d.2.m_CloseConnection = true)) := by
  apply List.filter_congr
  intro d _
  by_cases h : keepResponse d.2 = false
  · have h2 := (keepResponse_eq_false_iff d.2).mp h
    simp [h, h2]
  · have h2 : ¬ (d.2.m_Result ≠ Result.RESULT_OK ∨ d.2.m_CloseConnection = true) :=
      fun h' => h ((keepResponse_eq_false_iff d.2).mpr h')
    have h3 : keepResponse d.2 = true := by simpa using h
    simp only [h3, Bool.not_true, h2, decide_False]

theorem Connect_init_eq (env : Env) (port : Nat) (tr : Trace) :
    Connect env Server.init port tr =
      if (providerAnswers env port tr).resolve.1 ≠ dmSocket.Result.RESULT_OK then
        (Result.RESULT_SOCKET_ERROR, Server.init,
          tr ++ [Event.GetHostByName (providerAnswers env port tr).resolve.1
            (providerAnswers env port tr).resolve.2])
      else if (providerAnswers env port tr).create.1 ≠ dmSocket.Result.RESULT_OK then
        (Result.RESULT_UNKNOWN, Server.init,
          tr ++ [Event.GetHostByName (providerAnswers env port tr).resolve.1
              (providerAnswers env port tr).resolve.2,
            Event.SocketNew (providerAnswers env port tr).create.1
              (providerAnswers env port tr).create.2])
      else if (providerAnswers env port tr).bind ≠ dmSocket.Result.RESULT_OK then
        (Result.RESULT_SOCKET_ERROR, Server.init,
          tr ++ [Event.GetHostByName (providerAnswers env port tr).resolve.1
              (providerAnswers env port tr).resolve.2,
            Event.SocketNew (providerAnswers env port tr).create.1
              (providerAnswers env port tr).create.2,
            Event.SetReuseAddress (providerAnswers env port tr).create.2,
            Event.Bind (providerAnswers env port tr).create.2
              (providerAnswers env port tr).resolve.2 port (providerAnswers env port tr).bind,
            Event.Delete (providerAnswers env port tr).create.2])
      else if (providerAnswers env port tr).listen ≠ dmSocket.Result.RESULT_OK then
        (Result.RESULT_SOCKET_ERROR, Server.init,
          tr ++ [Event.GetHostByName (providerAnswers env port tr).resolve.1
              (providerAnswers env port tr).resolve.2,
            Event.SocketNew (providerAnswers env port tr).create.1
              (providerAnswers env port tr).create.2,
            Event.SetReuseAddress (providerAnswers env port tr).create.2,
            Event.Bind (providerAnswers env port tr).create.2
              (providerAnswers env port tr).resolve.2 port (providerAnswers env port tr).bind,
            Event.Listen (providerAnswers env port tr).create.2 32
              (providerAnswers env port tr).listen,
            Event.Delete (providerAnswers env port tr).create.2])
      else if (providerAnswers env port tr).name.1 ≠ dmSocket.Result.RESULT_OK then
        (Result.RESULT_SOCKET_ERROR, Server.init,
          tr ++ [Event.GetHostByName (providerAnswers env port tr).resolve.1
              (providerAnswers env port tr).resolve.2,
            Event.SocketNew (providerAnswers env port tr).create.1
              (providerAnswers env port tr).create.2,
            Event.SetReuseAddress (providerAnswers env port tr).create.2,
            Event.Bind (providerAnswers env port tr).create.2
              (providerAnswers env port tr).resolve.2 port (providerAnswers env port tr).bind,
            Event.Listen (providerAnswers env port tr).create.2 32
              (providerAnswers env port tr).listen,
            Event.GetName (providerAnswers env port tr).create.2
              (providerAnswers env port tr).name.1 (providerAnswers env port tr).name.2.1
              (providerAnswers env port tr).name.2.2,
            Event.Delete (providerAnswers env port tr).create.2])
      else
        (Result.RESULT_OK,
          { Server.init with
            m_Address := (providerAnswers env port tr).name.2.1
            m_Port := (providerAnswers env port tr).name.2.2
            m_ServerSocket := (providerAnswers env port tr).create.2 },
          tr ++ [Event.GetHostByName (providerAnswers env port tr).resolve.1
              (providerAnswers env port tr).resolve.2,
            Event.SocketNew (providerAnswers env port tr).create.1
              (providerAnswers env port tr).create.2,
            Event.SetReuseAddress (providerAnswers env port tr).create.2,
            Event.Bind (providerAnswers env port tr).create.2
              (providerAnswers env port tr).resolve.2 port (providerAnswers env port tr).bind,
            Event.Listen (providerAnswers env port tr).create.2 32
              (providerAnswers env port tr).listen,
            Event.GetName (providerAnswers env port tr).create.2
              (providerAnswers env port tr).name.1 (providerAnswers env port tr).name.2.1
              (providerAnswers env port tr).name.2.2]) := by
  have hd : Disconnect Server.init tr = (Server.init, tr) := rfl
  unfold Connect
  rw [hd]
  simp only [providerAnswers]
  split_ifs <;> simp only [List.append_assoc, List.singleton_append, List.cons_append,
    List.nil_append]

/-! ## The claims -/

/-- C7. Result of `New`.  With `a` what the socket provider hands back to the
five calls of `Connect` (address resolution, socket creation, bind, listen,
get-name) and `evs` the external calls made by `New`: `New` returns
`RESULT_ERROR_INVAL` exactly when the callback in the params is null, and then
makes no call at all; when the callback is set and the provider reports failure
at a step, `New` returns `RESULT_SOCKET_ERROR` with a null handle, having made
the calls up to that step (and deleted the new socket when it existed), socket
creation included although `Connect` itself reports `RESULT_UNKNOWN` there;
whenever the result is not OK the handle is null and no server object is handed
out; `New` returns `RESULT_OK` with a non-null handle exactly when the callback
is set and the provider reported OK at all five steps, and then the server
behind the handle holds the address, port and socket the provider gave. -/
theorem New_result (env : Env) (params : NewParams) (port : Nat) (tr : Trace)
    (a : ProviderAnswers) (ha : a = providerAnswers env port tr) :
    ∃ evs, (New env params port tr).2.2.2 = tr ++ evs ∧
      ((New env params port tr).1 = Result.RESULT_ERROR_INVAL ↔ params.m_HttpRequest = 0) ∧
      (params.m_HttpRequest = 0 → evs = []) ∧
      (params.m_HttpRequest ≠ 0 → (∃ e ∈ evs, e.stepFailed = true) →
        (New env params port tr).1 = Result.RESULT_SOCKET_ERROR) ∧
      (params.m_HttpRequest ≠ 0 →
        (∃ r socket, Event.SocketNew r socket ∈ evs ∧ r ≠ dmSocket.Result.RESULT_OK) →
        (New env params port tr).1 = Result.RESULT_SOCKET_ERROR) ∧
      ((New env params port tr).1 ≠ Result.RESULT_OK →
        (New env params port tr).2.1 = HServer.null ∧ (New env params port tr).2.2.1 = none) ∧
      (((New env params port tr).1 = Result.RESULT_OK ∧
          (New env params port tr).2.1 ≠ HServer.null) ↔
        (params.m_HttpRequest ≠ 0 ∧ ∀ e ∈ evs, e.stepFailed = false)) ∧
      ((New env params port tr).1 = Result.RESULT_OK →
        (∃ s, (New env params port tr).2.2.1 = some s) ∧
        ∃ bind_address socket address actual_port,
          evs = [Event.GetHostByName dmSocket.Result.RESULT_OK bind_address,
                 Event.SocketNew dmSocket.Result.RESULT_OK socket,
                 Event.SetReuseAddress socket,
                 Event.Bind socket bind_address port dmSocket.Result.RESULT_OK,
                 Event.Listen socket 32 dmSocket.Result.RESULT_OK,
                 Event.GetName socket dmSocket.Result.RESULT_OK address actual_port]) ∧
      (params.m_HttpRequest ≠ 0 → a.resolve.1 ≠ dmSocket.Result.RESULT_OK →
        New env params port tr = (Result.RESULT_SOCKET_ERROR, HServer.null, none,
          tr ++ [Event.GetHostByName a.resolve.1 a.resolve.2])) ∧
      (params.m_HttpRequest ≠ 0 → a.resolve.1 = dmSocket.Result.RESULT_OK → a.create.1 ≠ dmSocket.Result.RESULT_OK →
        New env params port tr = (Result.RESULT_SOCKET_ERROR, HServer.null, none,
          tr ++ [Event.GetHostByName a.resolve.1 a.resolve.2,
                Event.SocketNew a.create.1 a.create.2]) ∧
        (Connect env Server.init port tr).1 = Result.RESULT_UNKNOWN) ∧
      (params.m_HttpRequest ≠ 0 → a.resolve.1 = dmSocket.Result.RESULT_OK → a.create.1 = dmSocket.Result.RESULT_OK → a.bind ≠ dmSocket.Result.RESULT_OK →
        New env params port tr = (Result.RESULT_SOCKET_ERROR, HServer.null, none,
          tr ++ [Event.GetHostByName a.resolve.1 a.resolve.2,
                Event.SocketNew a.create.1 a.create.2,
                Event.SetReuseAddress a.create.2,
                Event.Bind a.create.2 a.resolve.2 port a.bind,
                Event.Delete a.create.2])) ∧
      (params.m_HttpRequest ≠ 0 → a.resolve.1 = dmSocket.Result.RESULT_OK → a.create.1 = dmSocket.Result.RESULT_OK → a.bind = dmSocket.Result.RESULT_OK →
        a.listen ≠ dmSocket.Result.RESULT_OK →
        New env params port tr = (Result.RESULT_SOCKET_ERROR, HServer.null, none,
          tr ++ [Event.GetHostByName a.resolve.1 a.resolve.2,
                Event.SocketNew a.create.1 a.create.2,
                Event.SetReuseAddress a.create.2,
                Event.Bind a.create.2 a.resolve.2 port a.bind,
                Event.Listen a.create.2 32 a.listen,
                Event.Delete a.create.2])) ∧
      (params.m_HttpRequest ≠ 0 → a.resolve.1 = dmSocket.Result.RESULT_OK → a.create.1 = dmSocket.Result.RESULT_OK → a.bind = dmSocket.Result.RESULT_OK →
        a.listen = dmSocket.Result.RESULT_OK → a.name.1 ≠ dmSocket.Result.RESULT_OK →
        New env params port tr = (Result.RESULT_SOCKET_ERROR, HServer.null, none,
          tr ++ [Event.GetHostByName a.resolve.1 a.resolve.2,
                Event.SocketNew a.create.1 a.create.2,
                Event.SetReuseAddress a.create.2,
                Event.Bind a.create.2 a.resolve.2 port a.bind,
                Event.Listen a.create.2 32 a.listen,
                Event.GetName a.create.2 a.name.1 a.name.2.1 a.name.2.2,
                Event.Delete a.create.2])) ∧
      (params.m_HttpRequest ≠ 0 → a.resolve.1 = dmSocket.Result.RESULT_OK → a.create.1 = dmSocket.Result.RESULT_OK → a.bind = dmSocket.Result.RESULT_OK →
        a.listen = dmSocket.Result.RESULT_OK → a.name.1 = dmSocket.Result.RESULT_OK →
        New env params port tr = (Result.RESULT_OK, HServer.ptr (env.NewServer tr),
          some { m_Address := a.name.2.1
                 m_Port := a.name.2.2
                 m_HttpRequest := params.m_HttpRequest
                 m_Userdata := params.m_Userdata
                 m_ConnectionTimeout := (params.m_ConnectionTimeout * 1000000) % 2 ^ 32
                 m_Connections := ⟨[], params.m_MaxConnections⟩
                 m_ServerSocket := a.create.2
                 m_Reconnect := false },
          tr ++ [Event.GetHostByName a.resolve.1 a.resolve.2,
                Event.SocketNew a.create.1 a.create.2,
                Event.SetReuseAddress a.create.2,
                Event.Bind a.create.2 a.resolve.2 port a.bind,
                Event.Listen a.create.2 32 a.listen,
                Event.GetName a.create.2 a.name.1 a.name.2.1 a.name.2.2])) ∧
      ((New env params port tr).1 = Result.RESULT_SOCKET_ERROR ↔
        (params.m_HttpRequest ≠ 0 ∧
          ¬ (a.resolve.1 = dmSocket.Result.RESULT_OK ∧ a.create.1 = dmSocket.Result.RESULT_OK ∧ a.bind = dmSocket.Result.RESULT_OK ∧ a.listen = dmSocket.Result.RESULT_OK ∧
            a.name.1 = dmSocket.Result.RESULT_OK))) ∧
      (((New env params port tr).1 = Result.RESULT_OK ∧
          (New env params port tr).2.1 ≠ HServer.null) ↔
        (params.m_HttpRequest ≠ 0 ∧ a.resolve.1 = dmSocket.Result.RESULT_OK ∧ a.create.1 = dmSocket.Result.RESULT_OK ∧ a.bind = dmSocket.Result.RESULT_OK ∧
          a.listen = dmSocket.Result.RESULT_OK ∧ a.name.1 = dmSocket.Result.RESULT_OK)) := by
  subst ha
  have hC := Connect_init_eq env port tr
  generalize providerAnswers env port tr = a at hC
  by_cases hcb : params.m_HttpRequest = 0
  · have hN : New env params port tr = (Result.RESULT_ERROR_INVAL, HServer.null, none, tr) := by
      unfold New; rw [if_pos hcb]
    refine ⟨[], ?_⟩
    rw [hN]
    simp [hcb]
  by_cases h1 : a.resolve.1 = dmSocket.Result.RESULT_OK
  swap
  · have hc : Connect env Server.init port tr = (Result.RESULT_SOCKET_ERROR, Server.init,
        tr ++ [Event.GetHostByName a.resolve.1 a.resolve.2]) := by
      rw [hC, if_pos h1]
    have hN : New env params port tr = (Result.RESULT_SOCKET_ERROR, HServer.null, none,
        tr ++ [Event.GetHostByName a.resolve.1 a.resolve.2]) := by
      unfold New; rw [if_neg hcb]; simp only [hc]; rfl
    refine ⟨[Event.GetHostByName a.resolve.1 a.resolve.2], ?_⟩
    rw [hN]
    simp [hcb, h1, Event.stepFailed]
  by_cases h2 : a.create.1 = dmSocket.Result.RESULT_OK
  swap
  · have hc : Connect env Server.init port tr = (Result.RESULT_UNKNOWN, Server.init,
        tr ++ [Event.GetHostByName a.resolve.1 a.resolve.2,
            Event.SocketNew a.create.1 a.create.2]) := by
      rw [hC, if_neg (not_not.mpr h1), if_pos h2]
    have hN : New env params port tr = (Result.RESULT_SOCKET_ERROR, HServer.null, none,
        tr ++ [Event.GetHostByName a.resolve.1 a.resolve.2,
            Event.SocketNew a.create.1 a.create.2]) := by
      unfold New; rw [if_neg hcb]; simp only [hc]; rfl
    refine ⟨[Event.GetHostByName a.resolve.1 a.resolve.2,
            Event.SocketNew a.create.1 a.create.2], ?_⟩
    rw [hN, hc]
    simp [hcb, h1, h2, Event.stepFailed]
  by_cases h3 : a.bind = dmSocket.Result.RESULT_OK
  swap
  · have hc : Connect env Server.init port tr = (Result.RESULT_SOCKET_ERROR, Server.init,
        tr ++ [Event.GetHostByName a.resolve.1 a.resolve.2,
            Event.SocketNew a.create.1 a.create.2,
            Event.SetReuseAddress a.create.2,
            Event.Bind a.create.2 a.resolve.2 port a.bind,
            Event.Delete a.create.2]) := by
      rw [hC, if_neg (not_not.mpr h1), if_neg (not_not.mpr h2), if_pos h3]
    have hN : New env params port tr = (Result.RESULT_SOCKET_ERROR, HServer.null, none,
        tr ++ [Event.GetHostByName a.resolve.1 a.resolve.2,
            Event.SocketNew a.create.1 a.create.2,
            Event.SetReuseAddress a.create.2,
            Event.Bind a.create.2 a.resolve.2 port a.bind,
            Event.Delete a.create.2]) := by
      unfold New; rw [if_neg hcb]; simp only [hc]; rfl
    refine ⟨[Event.GetHostByName a.resolve.1 a.resolve.2,
            Event.SocketNew a.create.1 a.create.2,
            Event.SetReuseAddress a.create.2,
            Event.Bind a.create.2 a.resolve.2 port a.bind,
            Event.Delete a.create.2], ?_⟩
    rw [hN]
    simp [hcb, h1, h2, h3, Event.stepFailed]
  by_cases h4 : a.listen = dmSocket.Result.RESULT_OK
  swap
  · have hc : Connect env Server.init port tr = (Result.RESULT_SOCKET_ERROR, Server.init,
        tr ++ [Event.GetHostByName a.resolve.1 a.resolve.2,
            Event.SocketNew a.create.1 a.create.2,
            Event.SetReuseAddress a.create.2,
            Event.Bind a.create.2 a.resolve.2 port a.bind,
            Event.Listen a.create.2 32 a.listen,
            Event.Delete a.create.2]) := by
      rw [hC, if_neg (not_not.mpr h1), if_neg (not_not.mpr h2), if_neg (not_not.mpr h3),
        if_pos h4]
    have hN : New env params port tr = (Result.RESULT_SOCKET_ERROR, HServer.null, none,
        tr ++ [Event.GetHostByName a.resolve.1 a.resolve.2,
            Event.SocketNew a.create.1 a.create.2,
            Event.SetReuseAddress a.create.2,
            Event.Bind a.create.2 a.resolve.2 port a.bind,
            Event.Listen a.create.2 32 a.listen,
            Event.Delete a.create.2]) := by
      unfold New; rw [if_neg hcb]; simp only [hc]; rfl
    refine ⟨[Event.GetHostByName a.resolve.1 a.resolve.2,
            Event.SocketNew a.create.1 a.create.2,
            Event.SetReuseAddress a.create.2,
            Event.Bind a.create.2 a.resolve.2 port a.bind,
            Event.Listen a.create.2 32 a.listen,
            Event.Delete a.create.2], ?_⟩
    rw [hN]
    simp [hcb, h1, h2, h3, h4, Event.stepFailed]
  by_cases h5 : a.name.1 = dmSocket.Result.RESULT_OK
  swap
  · have hc : Connect env Server.init port tr = (Result.RESULT_SOCKET_ERROR, Server.init,
        tr ++ [Event.GetHostByName a.resolve.1 a.resolve.2,
            Event.SocketNew a.create.1 a.create.2,
            Event.SetReuseAddress a.create.2,
            Event.Bind a.create.2 a.resolve.2 port a.bind,
            Event.Listen a.create.2 32 a.listen,
            Event.GetName a.create.2 a.name.1 a.name.2.1 a.name.2.2,
            Event.Delete a.create.2]) := by
      rw [hC, if_neg (not_not.mpr h1), if_neg (not_not.mpr h2), if_neg (not_not.mpr h3),
        if_neg (not_not.mpr h4), if_pos h5]
    have hN : New env params port tr = (Result.RESULT_SOCKET_ERROR, HServer.null, none,
        tr ++ [Event.GetHostByName a.resolve.1 a.resolve.2,
            Event.SocketNew a.create.1 a.create.2,
            Event.SetReuseAddress a.create.2,
            Event.Bind a.create.2 a.resolve.2 port a.bind,
            Event.Listen a.create.2 32 a.listen,
            Event.GetName a.create.2 a.name.1 a.name.2.1 a.name.2.2,
            Event.Delete a.create.2]) := by
      unfold New; rw [if_neg hcb]; simp only [hc]; rfl
    refine ⟨[Event.GetHostByName a.resolve.1 a.resolve.2,
            Event.SocketNew a.create.1 a.create.2,
            Event.SetReuseAddress a.create.2,
            Event.Bind a.create.2 a.resolve.2 port a.bind,
            Event.Listen a.create.2 32 a.listen,
            Event.GetName a.create.2 a.name.1 a.name.2.1 a.name.2.2,
            Event.Delete a.create.2], ?_⟩
    rw [hN]
    simp [hcb, h1, h2, h3, h4, h5, Event.stepFailed]
  have hc : Connect env Server.init port tr = (Result.RESULT_OK,
      { Server.init with
        m_Address := a.name.2.1
        m_Port := a.name.2.2
        m_ServerSocket := a.create.2 },
      tr ++ [Event.GetHostByName a.resolve.1 a.resolve.2,
        Event.SocketNew a.create.1 a.create.2,
        Event.SetReuseAddress a.create.2,
        Event.Bind a.create.2 a.resolve.2 port a.bind,
        Event.Listen a.create.2 32 a.listen,
        Event.GetName a.create.2 a.name.1 a.name.2.1 a.name.2.2]) := by
    rw [hC, if_neg (not_not.mpr h1), if_neg (not_not.mpr h2), if_neg (not_not.mpr h3),
      if_neg (not_not.mpr h4), if_neg (not_not.mpr h5)]
  have hN : New env params port tr = (Result.RESULT_OK, HServer.ptr (env.NewServer tr),
      some { m_Address := a.name.2.1
             m_Port := a.name.2.2
             m_HttpRequest := params.m_HttpRequest
             m_Userdata := params.m_Userdata
             m_ConnectionTimeout := (params.m_ConnectionTimeout * 1000000) % 2 ^ 32
             m_Connections := ⟨[], params.m_MaxConnections⟩
             m_ServerSocket := a.create.2
             m_Reconnect := false },
      tr ++ [Event.GetHostByName a.resolve.1 a.resolve.2,
        Event.SocketNew a.create.1 a.create.2,
        Event.SetReuseAddress a.create.2,
        Event.Bind a.create.2 a.resolve.2 port a.bind,
        Event.Listen a.create.2 32 a.listen,
        Event.GetName a.create.2 a.name.1 a.name.2.1 a.name.2.2]) := by
    unfold New; rw [if_neg hcb]; simp only [hc]
    simp [dmArray.SetCapacity, Server.init, dmArray.empty]
  refine ⟨[Event.GetHostByName a.resolve.1 a.resolve.2,
        Event.SocketNew a.create.1 a.create.2,
        Event.SetReuseAddress a.create.2,
        Event.Bind a.create.2 a.resolve.2 port a.bind,
        Event.Listen a.create.2 32 a.listen,
        Event.GetName a.create.2 a.name.1 a.name.2.1 a.name.2.2], ?_⟩
  rw [hN]
  simp [hcb, h1, h2, h3, h4, h5, Event.stepFailed]

/-- Instances of C7: `New` evaluated with a null callback, with each of the
five provider steps failing in turn, and with every step succeeding; the
socket-creation case is also obtained from the theorem. -/
theorem New_result_witness :
    createFailsAnswers = providerAnswers createFailsEnv 8080 [] ∧
    New quietEnv { demoParams with m_HttpRequest := 0 } 8080 []
      = (Result.RESULT_ERROR_INVAL, HServer.null, none, []) ∧
    New resolveFailsEnv demoParams 8080 []
      = (Result.RESULT_SOCKET_ERROR, HServer.null, none,
          [Event.GetHostByName (dmSocket.Result.RESULT_OTHER 2) 0]) ∧
    New bindFailsEnv demoParams 8080 []
      = (Result.RESULT_SOCKET_ERROR, HServer.null, none,
          [Event.GetHostByName dmSocket.Result.RESULT_OK 0, Event.SocketNew dmSocket.Result.RESULT_OK 3, Event.SetReuseAddress 3,
           Event.Bind 3 0 8080 (dmSocket.Result.RESULT_OTHER 5), Event.Delete 3]) ∧
    New listenFailsEnv demoParams 8080 []
      = (Result.RESULT_SOCKET_ERROR, HServer.null, none,
          [Event.GetHostByName dmSocket.Result.RESULT_OK 0, Event.SocketNew dmSocket.Result.RESULT_OK 3, Event.SetReuseAddress 3,
           Event.Bind 3 0 8080 dmSocket.Result.RESULT_OK, Event.Listen 3 32 (dmSocket.Result.RESULT_OTHER 4),
           Event.Delete 3]) ∧
    New nameFailsEnv demoParams 8080 []
      = (Result.RESULT_SOCKET_ERROR, HServer.null, none,
          [Event.GetHostByName dmSocket.Result.RESULT_OK 0, Event.SocketNew dmSocket.Result.RESULT_OK 3, Event.SetReuseAddress 3,
           Event.Bind 3 0 8080 dmSocket.Result.RESULT_OK, Event.Listen 3 32 dmSocket.Result.RESULT_OK,
           Event.GetName 3 (dmSocket.Result.RESULT_OTHER 9) 0 0, Event.Delete 3]) ∧
    New quietEnv demoParams 8080 []
      = (Result.RESULT_OK, HServer.ptr 1, some (demoServer 60000000 16 []), demoConnectTrace) ∧
    (New createFailsEnv demoParams 8080 []
      = (Result.RESULT_SOCKET_ERROR, HServer.null, none,
          [] ++ [Event.GetHostByName createFailsAnswers.resolve.1 createFailsAnswers.resolve.2,
            Event.SocketNew createFailsAnswers.create.1 createFailsAnswers.create.2]) ∧
      (Connect createFailsEnv Server.init 8080 []).1 = Result.RESULT_UNKNOWN) := by
  refine ⟨by rfl, by rfl, by rfl, by rfl, by rfl, by rfl, by rfl, ?_⟩
  obtain ⟨evs, -, -, -, -, -, -, -, -, -, hcreate, -⟩ :=
    New_result createFailsEnv demoParams 8080 [] createFailsAnswers (by rfl)
  exact hcreate (by decide) (by rfl) (by decide)

/-- C1. Pool bound invariant.  For a server created by `New` with max
connections `M` (a 16-bit value), the pool holds at most `M` connections and
has capacity `M` right after `New`, and after every sequence of `Update` calls,
each call under an arbitrary behaviour of the socket provider, the clock and
the callback; every one of these calls returns. -/
theorem pool_bound (env : Env) (params : NewParams) (port : Nat) (tr : Trace)
    (server : HServer) (s0 : Server) (tr0 : Trace)
    (hrange : params.InRange)
    (hnew : New env params port tr = (Result.RESULT_OK, server, some s0, tr0)) :
    s0.m_Connections.Size ≤ params.m_MaxConnections ∧
    s0.m_Connections.Capacity = params.m_MaxConnections ∧
    ∀ envs : List Env, ∃ s tr', UpdateSeq server envs s0 tr0 = some (s, tr') ∧
      s.m_Connections.Size ≤ params.m_MaxConnections ∧
      s.m_Connections.Capacity = params.m_MaxConnections := by
  obtain ⟨hpool, -⟩ := New_ok_pool env params port tr server s0 tr0 hnew
  have hv : s0.m_Connections.Valid := by
    rw [hpool]
    have := hrange.1
    simp only [dmArray.Valid, dmArray.Size, dmArray.Capacity, List.length_nil]
    omega
  have hcap : s0.m_Connections.Capacity = params.m_MaxConnections := by rw [hpool]; rfl
  refine ⟨?_, hcap, ?_⟩
  · rw [hpool]; simp [dmArray.Size]
  · intro envs
    obtain ⟨s, tr', hrun, hvs, hcs⟩ := UpdateSeq_valid server envs s0 tr0 hv
    refine ⟨s, tr', hrun, ?_, hcs.trans hcap⟩
    have := hvs.1
    rw [hcs, hcap] at this
    exact this

/-- C5. Accept while full.  In an `Update` call whose poll of the listening
socket succeeds and reports it ready, whose `Accept` succeeds with socket
`client`, and whose pool is already at capacity, the accept block leaves the
server, and so the pool, exactly as it was and only shuts down and deletes
`client`; the call returns, `client` is shut down and deleted in it, and the
pool at the end of the call holds only connections it held before (none was
added, the size did not grow). -/
theorem accept_while_full (env : Env) (server : HServer) (s : Server) (tr : Trace)
    (client : Socket)
    (hlen : s.m_Connections.Size < 2 ^ 32)
    (hpoll : (PollPhase env s tr).result = dmSocket.Result.RESULT_OK)
    (hready : SelectorIsSet (PollPhase env s tr).selector
      (PollPhase env s tr).server.m_ServerSocket = true)
    (hacc : env.Accept (PollPhase env s tr).trace (PollPhase env s tr).server.m_ServerSocket
      = (dmSocket.Result.RESULT_OK, client))
    (hfull : s.m_Connections.Full = true) :
    (AcceptPhase env (PollPhase env s tr).server (PollPhase env s tr).selector
      (PollPhase env s tr).trace).1.m_Connections = s.m_Connections ∧
    AcceptPhase env (PollPhase env s tr).server (PollPhase env s tr).selector
      (PollPhase env s tr).trace =
      ((PollPhase env s tr).server, (PollPhase env s tr).trace ++
        [Event.Accept (PollPhase env s tr).server.m_ServerSocket dmSocket.Result.RESULT_OK client,
         Event.LogWarning, Event.Shutdown client, Event.Delete client]) ∧
    ∃ res s' evs, Update env server s tr = some (res, s', tr ++ evs) ∧
      Event.Shutdown client ∈ evs ∧ Event.Delete client ∈ evs ∧
      (∀ c ∈ s'.m_Connections.data, c ∈ s.m_Connections.data) ∧
      s'.m_Connections.Size ≤ s.m_Connections.Size := by
  obtain ⟨revs, hptr, -, -, -, -, -, hpc, -⟩ := PollPhase_spec env s tr
  have hA : AcceptPhase env (PollPhase env s tr).server (PollPhase env s tr).selector
      (PollPhase env s tr).trace =
      ((PollPhase env s tr).server, (PollPhase env s tr).trace ++
        [Event.Accept (PollPhase env s tr).server.m_ServerSocket dmSocket.Result.RESULT_OK client,
         Event.LogWarning, Event.Shutdown client, Event.Delete client]) := by
    rcases AcceptPhase_cases env (PollPhase env s tr).server (PollPhase env s tr).selector
        (PollPhase env s tr).trace with
      ⟨h, -⟩ | ⟨-, -, -, h⟩ | ⟨-, -, h, -⟩ | ⟨-, h, -⟩ | ⟨-, h, -⟩
    · rw [hready] at h; exact absurd h (by decide)
    · rw [h, hacc]
    · rw [hpc, hfull] at h; exact absurd h (by decide)
    · rw [hacc] at h; rcases h with h | h <;> cases h
    · rw [hacc] at h; exact absurd rfl h
  refine ⟨by rw [hA, hpc], hA, ?_⟩
  have hlen' : (PollPhase env s tr).server.m_Connections.Size < 2 ^ 32 := by rw [hpc]; exact hlen
  obtain ⟨res, final, closed, tevs, hrun, hperm, -, -, -, -⟩ :=
    UpdateTail_summary env server (PollPhase env s tr).server ((PollPhase env s tr).trace ++
        [Event.Accept (PollPhase env s tr).server.m_ServerSocket dmSocket.Result.RESULT_OK client,
         Event.LogWarning, Event.Shutdown client, Event.Delete client]) hlen'
  refine ⟨res, { (PollPhase env s tr).server with
      m_Connections := ⟨final, (PollPhase env s tr).server.m_Connections.capacity⟩ }, revs ++
        [Event.Select [(PollPhase env s tr).server.m_ServerSocket] (PollPhase env s tr).result
          (PollPhase env s tr).selector] ++
        [Event.Accept (PollPhase env s tr).server.m_ServerSocket dmSocket.Result.RESULT_OK client,
         Event.LogWarning, Event.Shutdown client, Event.Delete client] ++ tevs, ?_, ?_, ?_, ?_, ?_⟩
  · rw [Update_eq_tail env server s tr hpoll, hA, hrun]
    simp only
    rw [hptr]
    simp only [List.append_assoc]
  · simp
  · simp
  · intro c hc
    rw [hpc] at hperm
    exact hperm.subset (List.mem_append_left _ hc)
  · rw [hpc] at hperm
    have := hperm.length_eq
    simp only [dmArray.Size, List.length_append] at this ⊢
    omega

/-- An instance of C1: `New` with the default-sized params, then three ticks, one
of them accepting a connection. -/
theorem pool_bound_witness :
    (demoParams.InRange ∧
      New quietEnv demoParams 8080 [] =
        (Result.RESULT_OK, HServer.ptr 1, some (demoServer 60000000 16 []), demoConnectTrace)) ∧
    (demoServer 60000000 16 []).m_Connections.Size ≤ demoParams.m_MaxConnections ∧
    ∃ s tr', UpdateSeq (HServer.ptr 1) [quietEnv, scenarioAEnv, quietEnv]
        (demoServer 60000000 16 []) demoConnectTrace = some (s, tr') ∧
      s.m_Connections.Size ≤ demoParams.m_MaxConnections ∧
      s.m_Connections.Capacity = demoParams.m_MaxConnections :=
  ⟨⟨by decide, by rfl⟩,
    (pool_bound quietEnv demoParams 8080 [] (HServer.ptr 1) (demoServer 60000000 16 [])
      demoConnectTrace (by decide) (by rfl)).1,
    (pool_bound quietEnv demoParams 8080 [] (HServer.ptr 1) (demoServer 60000000 16 [])
      demoConnectTrace (by decide) (by rfl)).2.2 [quietEnv, scenarioAEnv, quietEnv]⟩

/-- Scenario A as an instance of C5: capacity 1, one open connection, a second
client is accepted and refused. -/
theorem accept_while_full_witness :
    (scenarioAServer.m_Connections.Size < 2 ^ 32 ∧
      (PollPhase scenarioAEnv scenarioAServer []).result = dmSocket.Result.RESULT_OK ∧
      SelectorIsSet (PollPhase scenarioAEnv scenarioAServer []).selector
        (PollPhase scenarioAEnv scenarioAServer []).server.m_ServerSocket = true ∧
      scenarioAEnv.Accept (PollPhase scenarioAEnv scenarioAServer []).trace
        (PollPhase scenarioAEnv scenarioAServer []).server.m_ServerSocket
        = (dmSocket.Result.RESULT_OK, 6) ∧
      scenarioAServer.m_Connections.Full = true) ∧
    ∃ res s' evs, Update scenarioAEnv (HServer.ptr 1) scenarioAServer [] = some (res, s', [] ++ evs) ∧
      Event.Shutdown 6 ∈ evs ∧ Event.Delete 6 ∈ evs ∧
      (∀ c ∈ s'.m_Connections.data, c ∈ scenarioAServer.m_Connections.data) ∧
      s'.m_Connections.Size ≤ scenarioAServer.m_Connections.Size :=
  ⟨⟨by decide, by rfl, by rfl, by rfl, by rfl⟩,
    (accept_while_full scenarioAEnv (HServer.ptr 1) scenarioAServer [] 6
      (by decide) (by rfl) (by rfl) (by rfl) (by rfl)).2.2⟩

/-- C2. Timeout sweep of `Update`.  In an `Update` call whose poll of the
listening socket succeeds, with the clock read once before the sweep, the sweep
returns, and the pool it leaves (`kept`) holds exactly those connections of the
pool after the accept block whose elapsed time, computed in `uint64_t`, is not
greater than the timeout, each as often as before; the connections whose
elapsed time exceeds the timeout (`evicted`) have their sockets shut down and
deleted; the only poll that follows is over the sockets of `kept`, every
request handed to the callback is for a connection of `kept`, and the pool at
the end of the call holds only connections of `kept`.  When the socket handles
of the pool are pairwise distinct, the socket of an evicted connection is not in
the readiness set and no request for it reaches the callback in that call. -/
theorem timeout_sweep (env : Env) (server : HServer) (s : Server) (tr : Trace)
    (hv : s.m_Connections.Valid)
    (hpoll : (PollPhase env s tr).result = dmSocket.Result.RESULT_OK) :
    ∃ (kept evicted : List Connection) (res : Result) (s' : Server) (evs : Trace),
      TimeoutLoop s.m_ConnectionTimeout (env.GetTime (AfterAccept env s tr).2 % 2 ^ 64)
          ((AfterAccept env s tr).1.m_Connections.Size + 1)
          (AfterAccept env s tr).1.m_Connections 0
          ((AfterAccept env s tr).2 ++
            [Event.GetTime (env.GetTime (AfterAccept env s tr).2 % 2 ^ 64)])
        = some (⟨kept, s.m_Connections.capacity⟩,
            (AfterAccept env s tr).2 ++
              [Event.GetTime (env.GetTime (AfterAccept env s tr).2 % 2 ^ 64)] ++
              evicted.flatMap closeEvents) ∧
      List.Perm kept ((AfterAccept env s tr).1.m_Connections.data.filter (fun c =>
        decide (sub64 (env.GetTime (AfterAccept env s tr).2 % 2 ^ 64) c.m_ConnectionTimeStart
          ≤ s.m_ConnectionTimeout))) ∧
      List.Perm evicted ((AfterAccept env s tr).1.m_Connections.data.filter (fun c =>
        decide (sub64 (env.GetTime (AfterAccept env s tr).2 % 2 ^ 64) c.m_ConnectionTimeStart
          > s.m_ConnectionTimeout))) ∧
      Update env server s tr = some (res, s', (AfterAccept env s tr).2 ++ evs) ∧
      (∀ c ∈ evicted, Event.Shutdown c.m_Socket ∈ evs ∧ Event.Delete c.m_Socket ∈ evs) ∧
      (∀ sel r ready, Event.Select sel r ready ∈ evs → sel = kept.map (fun c => c.m_Socket)) ∧
      (∀ cb ud req resp, Event.HttpRequest cb ud req resp ∈ evs →
        ∃ c ∈ kept, req = mkRequest server c.m_Socket) ∧
      (∀ c ∈ s'.m_Connections.data, c ∈ kept) ∧
      (((AfterAccept env s tr).1.m_Connections.data.map (fun c => c.m_Socket)).Nodup →
        ∀ c ∈ evicted, c.m_Socket ∉ kept.map (fun c => c.m_Socket) ∧
          ∀ cb ud req resp, Event.HttpRequest cb ud req resp ∈ evs →
            req.m_Socket ≠ c.m_Socket) := by
  obtain ⟨aevs, added, -, hAc, hAv, hAt, -, -, -⟩ := AfterAccept_spec env s tr hv
  rw [Update_eq_afterAccept env server s tr hpoll]
  generalize AfterAccept env s tr = A at *
  have hlen : A.1.m_Connections.Size < 2 ^ 32 := lt_of_le_of_lt hAv.1 hAv.2
  have hcap : A.1.m_Connections.capacity = s.m_Connections.capacity := by rw [hAc]
  obtain ⟨kept, evicted, final, log, rsel, ready, res, hrun, hk, he, hloop, -, hok, hfail⟩ :=
    UpdateTail_full env server A.1 A.2 hlen
  rw [hAt, hcap] at hloop
  rw [hAt, filter_not_expired_eq] at hk
  rw [hAt, filter_expired_eq] at he
  have hreq : ∀ cb ud req resp, Event.HttpRequest cb ud req resp ∈
      [Event.GetTime (env.GetTime A.2 % 2 ^ 64)] ++ evicted.flatMap closeEvents ++
        [Event.Select (kept.map (fun c => c.m_Socket)) rsel ready] ++
        log.flatMap (dispatchEvents server A.1) →
      ∃ c ∈ kept, req = mkRequest server c.m_Socket := by
    intro cb ud req resp hmem
    rw [mem_tail_events] at hmem
    rcases hmem with h | ⟨c, -, h | h⟩ | h | ⟨d, hd, h | ⟨-, h | h⟩⟩
    · cases h
    · cases h
    · cases h
    · cases h
    · by_cases hr : rsel = dmSocket.Result.RESULT_OK
      · obtain ⟨-, hl, -⟩ := hok hr
        cases h
        exact ⟨d.1, (log_fst_mem_kept ready kept log hl d hd).1, rfl⟩
      · obtain ⟨-, hlog, -⟩ := hfail hr
        rw [hlog] at hd; cases hd
    · cases h
    · cases h
  refine ⟨kept, evicted, res, _, _, hloop, hk, he, hrun, ?_, ?_, hreq, ?_, ?_⟩
  · intro c hc
    constructor
    · rw [mem_tail_events]; exact Or.inr (Or.inl ⟨c, hc, Or.inl rfl⟩)
    · rw [mem_tail_events]; exact Or.inr (Or.inl ⟨c, hc, Or.inr rfl⟩)
  · intro sel r rdy hmem
    rw [mem_tail_events] at hmem
    rcases hmem with h | ⟨c, -, h | h⟩ | h | ⟨d, hd, h | ⟨-, h | h⟩⟩
    · cases h
    · cases h
    · cases h
    · cases h; rfl
    · cases h
    · cases h
    · cases h
  · intro c hc
    by_cases hr : rsel = dmSocket.Result.RESULT_OK
    · obtain ⟨-, hl, hf⟩ := hok hr
      exact final_mem_kept ready kept final log hl hf c hc
    · obtain ⟨-, -, hfin⟩ := hfail hr
      rw [← hfin]; exact hc
  · intro hnd c hc
    have hperm : List.Perm (kept ++ evicted) A.1.m_Connections.data := by
      have h1 := (hk.append he).trans List.perm_append_comm
      rw [← filter_not_expired_eq, ← filter_expired_eq] at h1
      exact h1.trans (List.filter_append_perm _ _)
    have hnd2 : ((kept ++ evicted).map (fun c => c.m_Socket)).Nodup :=
      ((hperm.map _).nodup_iff).mpr hnd
    rw [List.map_append, List.nodup_append] at hnd2
    have hdis : c.m_Socket ∉ kept.map (fun c => c.m_Socket) := by
      intro hmem
      exact hnd2.2.2 hmem (List.mem_map_of_mem _ hc)
    refine ⟨hdis, ?_⟩
    intro cb ud req resp hmem heq
    obtain ⟨c', hc', hreq'⟩ := hreq cb ud req resp hmem
    apply hdis
    rw [← heq, hreq']
    exact List.mem_map_of_mem _ hc'

/-- Scenario B as an instance of C2: timeout 1 s, accepted at time 0, `Update` at
2 s empties the pool. -/
theorem timeout_sweep_witness :
    (scenarioBServer.m_Connections.Valid ∧
      (PollPhase scenarioBEnv scenarioBServer []).result = dmSocket.Result.RESULT_OK) ∧
    (Update scenarioBEnv (HServer.ptr 1) scenarioBServer []).map
        (fun r => (r.1, r.2.1.m_Connections.data)) = some (Result.RESULT_OK, []) ∧
    ∃ (kept evicted : List Connection) (res : Result) (s' : Server) (evs : Trace),
      List.Perm kept [] ∧
      List.Perm evicted [{ m_Socket := 5, m_RequestCount := 0, m_ConnectionTimeStart := 0 }] ∧
      Update scenarioBEnv (HServer.ptr 1) scenarioBServer []
        = some (res, s', (AfterAccept scenarioBEnv scenarioBServer []).2 ++ evs) ∧
      (∀ c ∈ evicted, Event.Shutdown c.m_Socket ∈ evs ∧ Event.Delete c.m_Socket ∈ evs) ∧
      (∀ c ∈ s'.m_Connections.data, c ∈ kept) := by
  refine ⟨⟨by decide, by rfl⟩, by rfl, ?_⟩
  obtain ⟨kept, evicted, res, s', evs, -, hk, he, hrun, hclose, -, -, hfin, -⟩ :=
    timeout_sweep scenarioBEnv (HServer.ptr 1) scenarioBServer [] (by decide) (by rfl)
  exact ⟨kept, evicted, res, s', evs, hk, he, hrun, hclose, hfin⟩

/-- C3. The dispatch phase visits every ready connection exactly once.  In an
`Update` call whose first poll succeeds and whose pool (after the accept block)
has pairwise distinct socket handles, with `kept` the connections that survive
the timeout sweep: the call returns; if it returns `RESULT_SOCKET_ERROR` (the
second poll failed) the callback is not invoked; if it returns `RESULT_OK` (both
polls succeeded), with `ready` the readiness set the second poll reported over
the sockets of `kept`, the number of callback invocations carrying the socket
of a connection of `kept` is 1 when that socket is flagged ready and 0 when it
is not, whatever the callback answers (so whatever subset is evicted by
swap-removal), and every invocation is made with the registered callback and
user data on a request context with result OK, the socket of a ready
connection of `kept` and the server back-reference. -/
theorem dispatch_exactly_once (env : Env) (server : HServer) (s : Server) (tr : Trace)
    (hv : s.m_Connections.Valid)
    (hpoll : (PollPhase env s tr).result = dmSocket.Result.RESULT_OK)
    (hnodup : ((AfterAccept env s tr).1.m_Connections.data.map (fun c => c.m_Socket)).Nodup) :
    ∃ (kept : List Connection) (res : Result) (s' : Server) (evs : Trace),
      Update env server s tr = some (res, s', (AfterAccept env s tr).2 ++ evs) ∧
      List.Perm kept ((AfterAccept env s tr).1.m_Connections.data.filter (fun c =>
        decide (sub64 (env.GetTime (AfterAccept env s tr).2 % 2 ^ 64) c.m_ConnectionTimeStart
          ≤ s.m_ConnectionTimeout))) ∧
      (res = Result.RESULT_OK ∨ res = Result.RESULT_SOCKET_ERROR) ∧
      (res = Result.RESULT_SOCKET_ERROR → dispatchedRequests evs = []) ∧
      (res = Result.RESULT_OK → ∃ ready : Selector,
        Event.Select (kept.map (fun c => c.m_Socket)) dmSocket.Result.RESULT_OK ready ∈ evs ∧
        (∀ sel r rdy, Event.Select sel r rdy ∈ evs →
          sel = kept.map (fun c => c.m_Socket) ∧ r = dmSocket.Result.RESULT_OK ∧ rdy = ready) ∧
        (∀ c ∈ kept,
          ((dispatchedRequests evs).map (fun r => r.m_Socket)).count c.m_Socket
            = if SelectorIsSet ready c.m_Socket = true then 1 else 0) ∧
        (∀ cb ud req resp, Event.HttpRequest cb ud req resp ∈ evs →
          cb = s.m_HttpRequest ∧ ud = s.m_Userdata ∧
          req.m_Result = Result.RESULT_OK ∧ req.m_Server = server ∧
          req = mkRequest server req.m_Socket ∧
          ∃ c ∈ kept, SelectorIsSet ready c.m_Socket = true ∧ req.m_Socket = c.m_Socket)) := by
  obtain ⟨aevs, added, -, hAc, hAv, hAt, hAh, hAu, -⟩ := AfterAccept_spec env s tr hv
  rw [Update_eq_afterAccept env server s tr hpoll]
  generalize AfterAccept env s tr = A at *
  have hlen : A.1.m_Connections.Size < 2 ^ 32 := lt_of_le_of_lt hAv.1 hAv.2
  obtain ⟨kept, evicted, final, log, rsel, ready, res, hrun, hk, he, -, -, hok, hfail⟩ :=
    UpdateTail_full env server A.1 A.2 hlen
  have hknd := kept_sockets_nodup _ _ _ _ hk hnodup
  rw [hAt, filter_not_expired_eq] at hk
  refine ⟨kept, res, _, _, hrun, hk, ?_, ?_, ?_⟩
  · by_cases hr : rsel = dmSocket.Result.RESULT_OK
    · exact Or.inl (hok hr).1
    · exact Or.inr (hfail hr).1
  · intro hres
    by_cases hr : rsel = dmSocket.Result.RESULT_OK
    · rw [(hok hr).1] at hres; cases hres
    · rw [dispatchedRequests_tail, (hfail hr).2.1]; rfl
  · intro hres
    have hr : rsel = dmSocket.Result.RESULT_OK := by
      by_contra hr
      rw [(hfail hr).1] at hres; cases hres
    obtain ⟨-, hl, -⟩ := hok hr
    subst hr
    refine ⟨ready, ?_, ?_, ?_, ?_⟩
    · rw [mem_tail_events]; exact Or.inr (Or.inr (Or.inl rfl))
    · intro sel r rdy hmem
      rw [mem_tail_events] at hmem
      rcases hmem with h | ⟨c, -, h | h⟩ | h | ⟨d, hd, h | ⟨-, h | h⟩⟩
      · cases h
      · cases h
      · cases h
      · cases h; exact ⟨rfl, rfl, rfl⟩
      · cases h
      · cases h
      · cases h
    · intro c hc
      rw [dispatchedRequests_tail]
      exact dispatch_count ready kept log server hl hknd c hc
    · intro cb ud req resp hmem
      rw [mem_tail_events] at hmem
      rcases hmem with h | ⟨c, -, h | h⟩ | h | ⟨d, hd, h | ⟨-, h | h⟩⟩
      · cases h
      · cases h
      · cases h
      · cases h
      · cases h
        obtain ⟨hdk, hdr⟩ := log_fst_mem_kept ready kept log hl d hd
        exact ⟨hAh, hAu, rfl, rfl, rfl, d.1, hdk, hdr, rfl⟩
      · cases h
      · cases h

/-- An instance of C3: sockets 5 and 7 ready, the connection on 5 is evicted and
the one on 7, swapped into its place, is still dispatched, once. -/
theorem dispatch_exactly_once_witness :
    (dispatchServer.m_Connections.Valid ∧
      (PollPhase dispatchEnv dispatchServer []).result = dmSocket.Result.RESULT_OK ∧
      ((AfterAccept dispatchEnv dispatchServer []).1.m_Connections.data.map
        (fun c => c.m_Socket)).Nodup) ∧
    (Update dispatchEnv (HServer.ptr 1) dispatchServer []).map
        (fun r => (r.1, r.2.1.m_Connections.data.map (fun c => c.m_Socket),
          (dispatchedRequests r.2.2).map (fun q => q.m_Socket)))
      = some (Result.RESULT_OK, [7, 6], [5, 7]) ∧
    ∃ (kept : List Connection) (res : Result) (s' : Server) (evs : Trace),
      Update dispatchEnv (HServer.ptr 1) dispatchServer []
        = some (res, s', (AfterAccept dispatchEnv dispatchServer []).2 ++ evs) ∧
      (res = Result.RESULT_OK → ∃ ready : Selector,
        ∀ c ∈ kept,
          ((dispatchedRequests evs).map (fun r => r.m_Socket)).count c.m_Socket
            = if SelectorIsSet ready c.m_Socket = true then 1 else 0) := by
  refine ⟨⟨by decide, by rfl, by decide⟩, by rfl, ?_⟩
  obtain ⟨kept, res, s', evs, hrun, -, -, -, hok⟩ :=
    dispatch_exactly_once dispatchEnv (HServer.ptr 1) dispatchServer [] (by decide) (by rfl)
      (by decide)
  refine ⟨kept, res, s', evs, hrun, fun h => ?_⟩
  obtain ⟨ready, -, -, hcount, -⟩ := hok h
  exact ⟨ready, hcount⟩

/-- C4. Eviction decision after dispatch.  In an `Update` call whose first
poll succeeds, with `kept` the connections that survive the timeout sweep and
`log` the dispatched connections, in dispatch order, each with the request
context as the callback left it: the call returns, the callback invocations of
the call are those of `log`, and the final pool together with the dispatched
connections whose response has a result other than `RESULT_OK` or the close flag
set is a rearrangement of `kept`; so exactly those are missing.  When the
socket handles of the pool (after the accept block) are pairwise distinct, for
every callback invocation the pooled connection `c` whose socket the request
carries is absent from the pool when `Update` returns if and only if the
response has a result other than `RESULT_OK` or the close flag set; when the
result is `RESULT_OK` and the close flag is clear, `c` is in the final pool
exactly once with the same socket, start timestamp and request count; when it
is absent its socket was shut down and deleted in the call. -/
theorem eviction_after_dispatch (env : Env) (server : HServer) (s : Server) (tr : Trace)
    (hv : s.m_Connections.Valid)
    (hpoll : (PollPhase env s tr).result = dmSocket.Result.RESULT_OK) :
    ∃ (res : Result) (s' : Server) (evs : Trace) (kept : List Connection)
      (log : List (Connection × Request)),
      Update env server s tr = some (res, s', (AfterAccept env s tr).2 ++ evs) ∧
      List.Perm kept ((AfterAccept env s tr).1.m_Connections.data.filter (fun c =>
        decide (sub64 (env.GetTime (AfterAccept env s tr).2 % 2 ^ 64) c.m_ConnectionTimeStart
          ≤ s.m_ConnectionTimeout))) ∧
      dispatchLog evs = log.map (fun d => (d.1.m_Socket, d.2)) ∧
      (∀ d ∈ log, d.1 ∈ kept) ∧
      List.Perm (s'.m_Connections.data ++
        (log.filter (fun d => decide (d.2.m_Result ≠ Result.RESULT_OK ∨
          d.2.m_CloseConnection = true))).map Prod.fst) kept ∧
      (((AfterAccept env s tr).1.m_Connections.data.map (fun c => c.m_Socket)).Nodup →
        ∀ cb ud req resp, Event.HttpRequest cb ud req resp ∈ evs →
          ∀ c ∈ (AfterAccept env s tr).1.m_Connections.data, c.m_Socket = req.m_Socket →
            (c ∉ s'.m_Connections.data ↔
              (resp.m_Result ≠ Result.RESULT_OK ∨ resp.m_CloseConnection = true)) ∧
            (resp.m_Result = Result.RESULT_OK ∧ resp.m_CloseConnection = false →
              s'.m_Connections.data.count c = 1) ∧
            (c ∉ s'.m_Connections.data →
              Event.Shutdown c.m_Socket ∈ evs ∧ Event.Delete c.m_Socket ∈ evs)) := by
  obtain ⟨aevs, added, -, hAc, hAv, hAt, hAh, hAu, -⟩ := AfterAccept_spec env s tr hv
  rw [Update_eq_afterAccept env server s tr hpoll]
  generalize AfterAccept env s tr = A at *
  have hlen : A.1.m_Connections.Size < 2 ^ 32 := lt_of_le_of_lt hAv.1 hAv.2
  obtain ⟨kept, evicted, final, log, rsel, ready, res, hrun, hk, he, -, -, hok, hfail⟩ :=
    UpdateTail_full env server A.1 A.2 hlen
  have hlogmem : ∀ d ∈ log, d.1 ∈ kept := by
    intro d hd
    by_cases hr : rsel = dmSocket.Result.RESULT_OK
    · exact (log_fst_mem_kept ready kept log (hok hr).2.1 d hd).1
    · rw [(hfail hr).2.1] at hd; cases hd
  have hpartition : List.Perm (final ++
      (log.filter (fun d => decide (d.2.m_Result ≠ Result.RESULT_OK ∨
        d.2.m_CloseConnection = true))).map Prod.fst) kept := by
    rw [← filter_not_keep_eq]
    by_cases hr : rsel = dmSocket.Result.RESULT_OK
    · exact perm_dispatch_partition ready kept final log (hok hr).2.1 (hok hr).2.2
    · obtain ⟨-, hlog, hfin⟩ := hfail hr
      rw [hlog, hfin]; simp
  have hk' := hk
  rw [hAt, filter_not_expired_eq] at hk'
  refine ⟨res, _, _, kept, log, hrun, hk', dispatchLog_tail _ _ _ _ _ _ _ _, hlogmem,
    hpartition, ?_⟩
  intro hnodup
  have hknd := kept_sockets_nodup _ _ _ _ hk hnodup
  intro cb ud req resp hmem c hc hsock
  rw [mem_tail_events] at hmem
  rcases hmem with h | ⟨c, -, h | h⟩ | h | ⟨d, hd, h | ⟨-, h | h⟩⟩
  · cases h
  · cases h
  · cases h
  · cases h
  swap
  · cases h
  swap
  · cases h
  cases h
  have hr : rsel = dmSocket.Result.RESULT_OK := by
    by_contra hr
    rw [(hfail hr).2.1] at hd; cases hd
  obtain ⟨-, hl, hf⟩ := hok hr
  obtain ⟨hdk, hdr⟩ := log_fst_mem_kept ready kept log hl d hd
  have hdpool : d.1 ∈ A.1.m_Connections.data :=
    (List.mem_filter.mp (hk.subset hdk)).1
  have hcd : c = d.1 :=
    List.inj_on_of_nodup_map hnodup hc hdpool (by simpa [mkRequest] using hsock)
  subst hcd
  have hkn : kept.Nodup := List.Nodup.of_map _ hknd
  have hlognd : (log.map Prod.fst).Nodup :=
    (hl.nodup_iff).mpr (hkn.filter _)
  have hpart := perm_dispatch_partition ready kept final log hl hf
  have hfinnd : final.Nodup := by
    have := (hpart.nodup_iff).mpr hkn
    exact (List.nodup_append.mp this).1
  have hkeep_mem : keepResponse d.2 = true → d.1 ∈ final := by
    intro hkr
    apply hf.symm.subset
    apply List.mem_append_right
    exact List.mem_map_of_mem _ (List.mem_filter.mpr ⟨hd, hkr⟩)
  have hnokeep : keepResponse d.2 = false → d.1 ∉ final := by
    intro hkr hmemf
    rcases List.mem_append.mp (hf.subset hmemf) with h | h
    · have := (List.mem_filter.mp h).2
      simp [hdr] at this
    · obtain ⟨d', hd', hfst⟩ := List.mem_map.mp h
      obtain ⟨hd'l, hd'k⟩ := List.mem_filter.mp hd'
      have : d' = d := List.inj_on_of_nodup_map hlognd hd'l hd hfst
      rw [this, hkr] at hd'k
      exact Bool.noConfusion hd'k
  refine ⟨?_, ?_, ?_⟩
  · rw [← keepResponse_eq_false_iff]
    constructor
    · intro hnot
      by_contra hkr
      exact hnot (hkeep_mem (by simpa using hkr))
    · exact hnokeep
  · rintro ⟨h1, h2⟩
    have hkr : keepResponse d.2 = true := by simp [keepResponse, h1, h2]
    exact List.count_eq_one_of_mem hfinnd (hkeep_mem hkr)
  · intro hnot
    have hkr : keepResponse d.2 = false := by
      by_contra hkr
      exact hnot (hkeep_mem (by simpa using hkr))
    constructor
    · rw [mem_tail_events]
      exact Or.inr (Or.inr (Or.inr ⟨d, hd, Or.inr ⟨hkr, Or.inl rfl⟩⟩))
    · rw [mem_tail_events]
      exact Or.inr (Or.inr (Or.inr ⟨d, hd, Or.inr ⟨hkr, Or.inr rfl⟩⟩))

/-- C6. Swap-removal pool invariant.  If before an `Update` call the socket
handles of the pool are pairwise distinct and none is the invalid sentinel, and
every socket a successful `Accept` hands out is distinct from them, then the
call returns and afterwards the socket handles of the pool are again pairwise
distinct; every connection in the pool is a connection of the pool before the
call or the one accepted in this call (request count 0, socket handed out by a
successful `Accept` of this call); a connection of the old pool whose socket was
not shut down in the call is in the pool exactly once; no connection in the
pool holds a socket that was shut down (and deleted) during the call; and, a
successful `Accept` never handing out the invalid sentinel, no connection in the
pool holds the invalid sentinel. -/
theorem swap_removal_invariant (env : Env) (server : HServer) (s : Server) (tr : Trace)
    (hv : s.m_Connections.Valid)
    (hnodup : (s.m_Connections.data.map (fun c => c.m_Socket)).Nodup)
    (hvalid : ∀ c ∈ s.m_Connections.data, c.m_Socket ≠ INVALID_SOCKET_HANDLE)
    (haccept : ∀ t srv, (env.Accept t srv).1 = dmSocket.Result.RESULT_OK →
      (env.Accept t srv).2 ∉ s.m_Connections.data.map (fun c => c.m_Socket)) :
    ∃ (res : Result) (s' : Server) (evs : Trace),
      Update env server s tr = some (res, s', tr ++ evs) ∧
      (s'.m_Connections.data.map (fun c => c.m_Socket)).Nodup ∧
      (∀ c ∈ s'.m_Connections.data, c ∈ s.m_Connections.data ∨
        (c.m_RequestCount = 0 ∧
          ∃ srv, Event.Accept srv dmSocket.Result.RESULT_OK c.m_Socket ∈ evs)) ∧
      (∀ c ∈ s.m_Connections.data, Event.Shutdown c.m_Socket ∉ evs →
        s'.m_Connections.data.count c = 1) ∧
      (∀ c ∈ s'.m_Connections.data, Event.Shutdown c.m_Socket ∉ evs) ∧
      ((∀ t srv, (env.Accept t srv).1 = dmSocket.Result.RESULT_OK →
          (env.Accept t srv).2 ≠ INVALID_SOCKET_HANDLE) →
        ∀ c ∈ s'.m_Connections.data, c.m_Socket ≠ INVALID_SOCKET_HANDLE) := by
  obtain ⟨res, s', evs, final, closed, added, refused, hrun, hconn, hperm, hsh, -, hadd, href,
    -⟩ := Update_summary env server s tr hv
  have hnd1 : ((s.m_Connections.data ++ added).map (fun c => c.m_Socket)).Nodup := by
    rcases hadd with h | ⟨c, h, -, -, -, t, srv, hok, hsock, -⟩
    · rw [h, List.append_nil]; exact hnodup
    · rw [h, List.map_append, List.nodup_append]
      refine ⟨hnodup, by simp, ?_⟩
      intro x hx hx'
      simp only [List.map_cons, List.map_nil, List.mem_singleton] at hx'
      rw [hx', hsock] at hx
      exact haccept t srv hok hx
  have hnd2 : ((final ++ closed).map (fun c => c.m_Socket)).Nodup :=
    ((hperm.map _).nodup_iff).mpr hnd1
  rw [List.map_append, List.nodup_append] at hnd2
  obtain ⟨hfnd, -, hdisj⟩ := hnd2
  have hfsub : ∀ c ∈ final, c ∈ s.m_Connections.data ∨ c ∈ added := by
    intro c hc
    exact List.mem_append.mp (hperm.subset (List.mem_append_left _ hc))
  have hdata : s'.m_Connections.data = final := by rw [hconn]
  refine ⟨res, s', evs, hrun, ?_, ?_, ?_, ?_, ?_⟩
  · rw [hdata]; exact hfnd
  · rw [hdata]
    intro c hc
    rcases hfsub c hc with h | h
    · exact Or.inl h
    · rcases hadd with ha | ⟨c', ha, -, -, hc0, t, srv, -, -, hev⟩
      · rw [ha] at h; cases h
      · rw [ha, List.mem_singleton] at h
        subst h
        exact Or.inr ⟨hc0, srv, hev⟩
  · rw [hdata]
    intro c hc hns
    have hmem : c ∈ final ++ closed := hperm.symm.subset (List.mem_append_left _ hc)
    rcases List.mem_append.mp hmem with h | h
    · exact List.count_eq_one_of_mem (List.Nodup.of_map _ hfnd) h
    · exact absurd ((hsh c.m_Socket).mpr (Or.inl (List.mem_map_of_mem _ h))) hns
  · rw [hdata]
    intro c hc hshut
    rcases (hsh c.m_Socket).mp hshut with h | h
    · exact hdisj (List.mem_map_of_mem _ hc) h
    · rcases href with hr | ⟨t, srv, hr, ha, hok⟩
      · rw [hr] at h; cases h
      · rw [hr, List.mem_singleton] at h
        rcases hfsub c hc with h' | h'
        · apply haccept t srv hok
          rw [← h]
          exact List.mem_map_of_mem _ h'
        · rw [ha] at h'; cases h'
  · rw [hdata]
    intro hsentinel c hc
    rcases hfsub c hc with h | h
    · exact hvalid c h
    · rcases hadd with ha | ⟨c', ha, -, -, -, t, srv, hok, hsock, -⟩
      · rw [ha] at h; cases h
      · rw [ha, List.mem_singleton] at h
        subst h
        rw [hsock]
        exact hsentinel t srv hok

/-- Instances of C4: a freshly accepted ready connection whose response sets the
close flag is gone in the same tick; scenario C, a connection answered with OK
and no close flag stays across ticks and goes when it times out. -/
theorem eviction_after_dispatch_witness :
    ((demoServer 60000000 16 []).m_Connections.Valid ∧
      (PollPhase busyEnv (demoServer 60000000 16 []) []).result = dmSocket.Result.RESULT_OK ∧
      ((AfterAccept busyEnv (demoServer 60000000 16 []) []).1.m_Connections.data.map
        (fun c => c.m_Socket)).Nodup) ∧
    ((AfterAccept busyEnv (demoServer 60000000 16 []) []).1.m_Connections.data.map
        (fun c => c.m_Socket) = [6] ∧
      (Update busyEnv (HServer.ptr 1) (demoServer 60000000 16 []) []).map
        (fun r => (r.1, r.2.1.m_Connections.data)) = some (Result.RESULT_OK, []) ∧
      (UpdateSeq (HServer.ptr 1) [scenarioCEnv 0, scenarioCEnv 20000000, scenarioCEnv 60000000]
          scenarioAServer []).map (fun r => r.1.m_Connections.data)
        = some scenarioAServer.m_Connections.data ∧
      (UpdateSeq (HServer.ptr 1) [scenarioCEnv 0, scenarioCEnv 20000000, scenarioCEnv 60000001]
          scenarioAServer []).map (fun r => r.1.m_Connections.data) = some []) ∧
    ∃ (res : Result) (s' : Server) (evs : Trace),
      Update busyEnv (HServer.ptr 1) (demoServer 60000000 16 []) []
        = some (res, s', (AfterAccept busyEnv (demoServer 60000000 16 []) []).2 ++ evs) ∧
      ∀ cb ud req resp, Event.HttpRequest cb ud req resp ∈ evs →
        ∀ c ∈ (AfterAccept busyEnv (demoServer 60000000 16 []) []).1.m_Connections.data,
          c.m_Socket = req.m_Socket →
            (c ∉ s'.m_Connections.data ↔
              (resp.m_Result ≠ Result.RESULT_OK ∨ resp.m_CloseConnection = true)) := by
  refine ⟨⟨by decide, by rfl, by decide⟩, ⟨by rfl, by rfl, by rfl, by rfl⟩, ?_⟩
  obtain ⟨res, s', evs, kept, log, hrun, -, -, -, -, hiff⟩ :=
    eviction_after_dispatch busyEnv (HServer.ptr 1) (demoServer 60000000 16 []) []
      (by decide) (by rfl)
  exact ⟨res, s', evs, hrun,
    fun cb ud req resp hm c hc hs => (hiff (by decide) cb ud req resp hm c hc hs).1⟩

/-- An instance of C6: sockets 5 and 7 pooled, socket 6 accepted, 5 and 6
dispatched and closed. -/
theorem swap_removal_invariant_witness :
    (busyServer.m_Connections.Valid ∧
      (busyServer.m_Connections.data.map (fun c => c.m_Socket)).Nodup ∧
      (∀ c ∈ busyServer.m_Connections.data, c.m_Socket ≠ INVALID_SOCKET_HANDLE) ∧
      (∀ t srv, (busyEnv.Accept t srv).1 = dmSocket.Result.RESULT_OK →
        (busyEnv.Accept t srv).2 ∉ busyServer.m_Connections.data.map (fun c => c.m_Socket))) ∧
    (Update busyEnv (HServer.ptr 1) busyServer []).map
        (fun r => (r.1, r.2.1.m_Connections.data.map (fun c => c.m_Socket)))
      = some (Result.RESULT_OK, [7]) ∧
    ∃ (res : Result) (s' : Server) (evs : Trace),
      Update busyEnv (HServer.ptr 1) busyServer [] = some (res, s', [] ++ evs) ∧
      (s'.m_Connections.data.map (fun c => c.m_Socket)).Nodup ∧
      (∀ c ∈ s'.m_Connections.data, Event.Shutdown c.m_Socket ∉ evs) ∧
      (∀ c ∈ s'.m_Connections.data, c.m_Socket ≠ INVALID_SOCKET_HANDLE) :=
  ⟨⟨by decide, by decide, by decide,
      fun _ _ _ => (by decide : (6 : Socket) ∉ [(5 : Socket), 7])⟩, by rfl,
    (swap_removal_invariant busyEnv (HServer.ptr 1) busyServer [] (by decide) (by decide)
      (by decide) (fun _ _ _ => (by decide : (6 : Socket) ∉ [(5 : Socket), 7]))).imp
      fun _ h => h.imp fun _ h => h.imp fun _ h =>
        ⟨h.1, h.2.1, h.2.2.2.2.1,
          h.2.2.2.2.2 (fun _ _ _ => (by decide : (6 : Socket) ≠ -1))⟩⟩

/-- C8 (the defect at a concrete input).  With a connection timeout of 4295
seconds, a 16-bit value, a successful `New` stores 32704 microseconds, not
4295000000: the product with `1000000U` is formed in 32-bit `unsigned int` and
wraps.  With that stored timeout the sweep test already holds 40 milliseconds
after the connection was accepted. -/
theorem New_timeout_wraps :
    wrapParams.InRange ∧
    (New quietEnv wrapParams 8080 []).1 = Result.RESULT_OK ∧
    (New quietEnv wrapParams 8080 []).2.2.1.map (fun s => s.m_ConnectionTimeout)
      = some 32704 ∧
    (32704 : Nat) ≠ wrapParams.m_ConnectionTimeout * 1000000 ∧
    expired 32704 40000 { m_Socket := 5, m_RequestCount := 0, m_ConnectionTimeStart := 0 }
      = true :=
  ⟨by decide, by rfl, by rfl, by decide, by rfl⟩

/-- C9 as stated fails.  With a pool holding one connection (socket 5, accepted
at time 0, timeout 1 s), the clock at 2 s, the first poll succeeding and the
second poll failing, `Update` returns `RESULT_SOCKET_ERROR` after the timeout
sweep has shut down and deleted socket 5 and emptied the pool: the pool after
the call is not the pool before it. -/
theorem Update_error_pool_changed :
    (Update secondPollFailsEnv (HServer.ptr 1) scenarioBServer []).map
        (fun r => (r.1, r.2.1.m_Connections.data, r.2.2))
      = some (Result.RESULT_SOCKET_ERROR, [],
          [Event.Select [3] dmSocket.Result.RESULT_OK [],
           Event.GetTime 2000000,
           Event.Shutdown 5, Event.Delete 5,
           Event.Select [] (dmSocket.Result.RESULT_OTHER 1) []]) ∧
    ¬ (∀ (env : Env) (server : HServer) (s : Server) (tr : Trace) (res : Result) (s' : Server)
        (tr' : Trace),
        Update env server s tr = some (res, s', tr') → res = Result.RESULT_SOCKET_ERROR →
          s'.m_Connections = s.m_Connections) := by
  refine ⟨by rfl, fun h => ?_⟩
  have := h secondPollFailsEnv (HServer.ptr 1) scenarioBServer [] _ _ _ rfl rfl
  exact absurd this (by decide)

/-- C9, amended.  Every `Update` call returns `RESULT_OK` or
`RESULT_SOCKET_ERROR`.  When it returns `RESULT_SOCKET_ERROR`, the callback was
not invoked in that call.  If the poll that failed is the first one (the
listening socket), the pool after the call equals the pool before it, nothing
was accepted and no socket was shut down.  If the first poll succeeded (so the
second one failed), the pool after the call is the pool the accept block and the
timeout sweep of that call left: it holds exactly the connections of the pool
after the accept block whose elapsed time is not greater than the timeout. -/
theorem Update_socket_error (env : Env) (server : HServer) (s : Server) (tr : Trace)
    (hv : s.m_Connections.Valid) :
    ∃ (res : Result) (s' : Server) (evs : Trace),
      Update env server s tr = some (res, s', tr ++ evs) ∧
      (res = Result.RESULT_OK ∨ res = Result.RESULT_SOCKET_ERROR) ∧
      (res = Result.RESULT_SOCKET_ERROR →
        dispatchedRequests evs = [] ∧
        ((PollPhase env s tr).result ≠ dmSocket.Result.RESULT_OK →
          s'.m_Connections = s.m_Connections ∧
          (∀ x, Event.Shutdown x ∉ evs) ∧
          (∀ a r c, Event.Accept a r c ∉ evs)) ∧
        ((PollPhase env s tr).result = dmSocket.Result.RESULT_OK →
          s'.m_Connections.capacity = s.m_Connections.capacity ∧
          List.Perm s'.m_Connections.data
            ((AfterAccept env s tr).1.m_Connections.data.filter (fun c =>
              decide (sub64 (env.GetTime (AfterAccept env s tr).2 % 2 ^ 64)
                c.m_ConnectionTimeStart ≤ s.m_ConnectionTimeout))))) := by
  obtain ⟨revs, hptr, hrstep, -, -, -, -, hpc, -⟩ := PollPhase_spec env s tr
  by_cases hpoll : (PollPhase env s tr).result = dmSocket.Result.RESULT_OK
  · obtain ⟨aevs, added, hAtr, hAc, hAv, hAt, -, -, hnoreq⟩ := AfterAccept_spec env s tr hv
    rw [Update_eq_afterAccept env server s tr hpoll]
    generalize AfterAccept env s tr = A at *
    have hlen : A.1.m_Connections.Size < 2 ^ 32 := lt_of_le_of_lt hAv.1 hAv.2
    obtain ⟨kept, evicted, final, log, rsel, ready, res, hrun, hk, -, -, -, hok, hfail⟩ :=
      UpdateTail_full env server A.1 A.2 hlen
    rw [hAt, filter_not_expired_eq] at hk
    refine ⟨res, { A.1 with m_Connections := ⟨final, A.1.m_Connections.capacity⟩ },
      aevs ++ ([Event.GetTime (env.GetTime A.2 % 2 ^ 64)] ++
        evicted.flatMap closeEvents ++
        [Event.Select (kept.map (fun c => c.m_Socket)) rsel ready] ++
        log.flatMap (dispatchEvents server A.1)), ?_, ?_, ?_⟩
    · rw [hrun, hAtr]; simp only [List.append_assoc]
    · by_cases hr : rsel = dmSocket.Result.RESULT_OK
      · exact Or.inl (hok hr).1
      · exact Or.inr (hfail hr).1
    · intro hres
      have hr : rsel ≠ dmSocket.Result.RESULT_OK := by
        intro hr
        rw [(hok hr).1] at hres; cases hres
      obtain ⟨-, hlog, hfin⟩ := hfail hr
      refine ⟨?_, fun h => absurd hpoll h, fun _ => ⟨?_, ?_⟩⟩
      · rw [dispatchedRequests_append, dispatchedRequests_eq_nil aevs hnoreq,
          dispatchedRequests_tail, hlog]
        rfl
      · simp only [hAc]
      · simp only [hfin]; exact hk
  · refine ⟨Result.RESULT_SOCKET_ERROR, (PollPhase env s tr).server,
      revs ++ [Event.Select [(PollPhase env s tr).server.m_ServerSocket]
        (PollPhase env s tr).result (PollPhase env s tr).selector], ?_, Or.inr rfl, ?_⟩
    · rw [Update_eq_error env server s tr hpoll, hptr]; simp only [List.append_assoc]
    · intro _
      have hconn : ∀ e ∈ revs ++ [Event.Select [(PollPhase env s tr).server.m_ServerSocket]
          (PollPhase env s tr).result (PollPhase env s tr).selector],
          e.isConnectStep = true ∨ e = Event.Select [(PollPhase env s tr).server.m_ServerSocket]
            (PollPhase env s tr).result (PollPhase env s tr).selector := by
        intro e he
        rcases List.mem_append.mp he with h | h
        · exact Or.inl (hrstep e h)
        · exact Or.inr (List.mem_singleton.mp h)
      refine ⟨?_, fun _ => ⟨hpc, ?_, ?_⟩, fun h => absurd h hpoll⟩
      · apply dispatchedRequests_eq_nil
        intro e he cb ud req resp heq
        rcases hconn e he with h | h
        · rw [heq] at h; simp [Event.isConnectStep] at h
        · rw [heq] at h; cases h
      · intro x hx
        rcases hconn _ hx with h | h
        · simp [Event.isConnectStep] at h
        · cases h
      · intro a r c hx
        rcases hconn _ hx with h | h
        · simp [Event.isConnectStep] at h
        · cases h

/-- An instance of the amended C9: the second poll fails after the sweep. -/
theorem Update_socket_error_witness :
    scenarioBServer.m_Connections.Valid ∧
    ∃ (res : Result) (s' : Server) (evs : Trace),
      Update secondPollFailsEnv (HServer.ptr 1) scenarioBServer [] = some (res, s', [] ++ evs) ∧
      (res = Result.RESULT_OK ∨ res = Result.RESULT_SOCKET_ERROR) ∧
      (res = Result.RESULT_SOCKET_ERROR → dispatchedRequests evs = []) :=
  ⟨by decide,
    (Update_socket_error secondPollFailsEnv (HServer.ptr 1) scenarioBServer []
      (by decide)).imp fun _ h => h.imp fun _ h => h.imp fun _ h =>
        ⟨h.1, h.2.1, fun hr => (h.2.2 hr).1⟩⟩

end wsHttpServer
